import Mathlib

set_option maxRecDepth 100000

/-!
Verification development for the Lao tutor backend.

The definitions below are a shallow embedding of the tutoring core found in
`backend/app/services/tutor.py` (phrase matching, curriculum tracking and the
`process_audio` orchestrator), `backend/app/services/llm.py` (the conversation
service) and the pure helpers of `backend/app/services/nlp.py`.  Python strings
become `String`, `None`-able values become `Option`, dictionaries keep their
insertion order as association lists, and the per-task focus-index dictionary is
represented as a total function `String → Nat` (the source initialises a missing
key to `0` on first access, which is exactly the default of this
representation).  External collaborators (VAD, ASR, the translator and the
generative backend) are modelled as per-turn inputs carrying the value the
collaborator would return, matching the interfaces in the source.
-/

namespace LaosTutor

/-! ## Character helpers (Python string primitives used by the source) -/

/-- Python `str.isspace`-style test restricted to the ASCII whitespace
characters (space, tab, newline, carriage return, vertical tab, form feed);
the non-ASCII Unicode space characters are not modelled. -/
def pyIsSpace (c : Char) : Bool :=
  c.toNat = 32 || c.toNat = 9 || c.toNat = 10 || c.toNat = 13 || c.toNat = 11 || c.toNat = 12

/-- Python `str.lower` character map.  ASCII `A`-`Z` map to `a`-`z`; the two
non-ASCII code points whose Python lowercase contains ASCII letters (KELVIN
SIGN U+212A and LATIN CAPITAL LETTER I WITH DOT ABOVE U+0130) are handled
explicitly; every other character (in particular Lao script, which is uncased)
is left unchanged. -/
def pyLowerChar (c : Char) : List Char :=
  if 65 ≤ c.toNat ∧ c.toNat ≤ 90 then [Char.ofNat (c.toNat + 32)]
  else if c.toNat = 0x212A then [Char.ofNat 107]
  else if c.toNat = 0x130 then [Char.ofNat 105, Char.ofNat 0x307]
  else [c]

/-- Python `str.lower` on a whole string. -/
def pyLower (s : String) : String :=
  String.mk ((s.data.map pyLowerChar).flatten)

/-- Python `str.strip()` (whitespace removed from both ends). -/
def pyStripList (l : List Char) : List Char :=
  ((l.dropWhile pyIsSpace).reverse.dropWhile pyIsSpace).reverse

/-- Python `str.strip()` on a `String`. -/
def pyStrip (s : String) : String :=
  String.mk (pyStripList s.data)

/-- Substring test: `containsSub hay pat` is Python `pat in hay`.
The empty pattern is a substring of everything, as in Python. -/
def containsSub (hay pat : List Char) : Bool :=
  (List.range (hay.length + 1)).any (fun i => pat.isPrefixOf (hay.drop i))

/-- A character in the Lao Unicode block, as tested by
`contains_lao_characters` in `nlp.py` (`"຀" <= char <= "໿"`). -/
def isLaoChar (c : Char) : Bool :=
  0xE80 ≤ c.toNat ∧ c.toNat ≤ 0xEFF

/-- `contains_lao_characters` from `nlp.py`. -/
def containsLao (s : String) : Bool :=
  s.data.any isLaoChar

/-- `extract_first_lao_segment` from `nlp.py`: the first maximal run of Lao
characters, `none` when the text is empty or has no Lao character. -/
def firstLaoRun (s : String) : Option String :=
  if s = "" then none
  else
    let rest := s.data.dropWhile (fun c => !(isLaoChar c))
    if rest.isEmpty then none else some (String.mk (rest.takeWhile isLaoChar))

/-! ## Text normalisation (`_normalize_key` / `_normalize_romanised`) -/

/-- Keep characters matching the regex class `[a-z0-9\s]`. -/
def keepKeyChar (c : Char) : Bool :=
  (97 ≤ c.toNat && c.toNat ≤ 122) || (48 ≤ c.toNat && c.toNat ≤ 57) || pyIsSpace c

/-- `TutorEngine._normalize_key`: lowercase, strip, then drop every character
outside `[a-z0-9\s]`.  (The `if not text` early return yields the same empty
result, so it needs no separate branch here.) -/
def normalizeKey (text : String) : String :=
  String.mk ((pyStripList ((text.data.map pyLowerChar).flatten)).filter keepKeyChar)

/-- Keep characters matching the regex class `[a-z]`. -/
def keepLetterChar (c : Char) : Bool :=
  97 ≤ c.toNat && c.toNat ≤ 122

/-- `TutorEngine._normalize_romanised`: lowercase, then drop every character
outside `[a-z]`. -/
def normalizeRomanised (text : String) : String :=
  String.mk (((text.data.map pyLowerChar).flatten).filter keepLetterChar)

/-! ## Romanisation (`LaoTextProcessor` fallback path of `nlp.py`)

The optional `laonlp` tokenizer is an external dependency; the source falls
back to character-by-character segmentation with the `_ROMAN_MAP` table, which
is what we embed. -/

/-- The `_ROMAN_MAP` table of `nlp.py`. -/
def romanPairs : List (Char × String) :=
  [('ກ', "k"), ('ຂ', "kh"), ('ຄ', "kh"), ('ງ', "ng"), ('ຈ', "ch"), ('ສ', "s"),
   ('ຊ', "s"), ('ດ', "d"), ('ຕ', "t"), ('ນ', "n"), ('ບ', "b"), ('ປ', "p"),
   ('ຜ', "ph"), ('ຝ', "f"), ('ພ', "ph"), ('ຟ', "f"), ('ມ', "m"), ('ຢ', "y"),
   ('ຣ', "r"), ('ລ', "l"), ('ວ', "w"), ('ຫ', "h"), ('ອ', "o"), ('ຮ', "h"),
   ('ະ', "a"), ('າ', "aa"), ('ິ', "i"), ('ີ', "ii"), ('ຸ', "u"), ('ູ', "uu"),
   ('ເ', "e"), ('ແ', "ae"), ('ໂ', "o"), ('ໄ', "ai"), ('ໃ', "ai"), ('ັ', "a")]

/-- `_ROMAN_MAP.get(char, char)`. -/
def romanChar (c : Char) : String :=
  match romanPairs.find? (fun p => p.1 == c) with
  | some p => p.2
  | none => String.singleton c

/-- `LaoTextProcessor.segment(text).romanised` in fallback mode: each character
is a token, each token is romanised via the map, and the non-empty romanised
tokens are joined with spaces (with the character map every token is
non-empty, so the `filter(None, ...)` of the source never drops anything). -/
def segmentRomanised (text : String) : String :=
  String.intercalate " " (text.data.map romanChar)

/-! ## `difflib.SequenceMatcher.ratio`

`SequenceMatcher` (with no junk, and strings far below the autojunk limit of
200 characters) computes the Ratcliff–Obershelp match count: find the longest
matching block (earliest start in `a`, then earliest in `b`, on ties), recurse
on the pieces to its left and right, and sum the block sizes.  The ratio is
`2*M/(len(a)+len(b))`, or `1` when both strings are empty.  We compute it in
exact rational arithmetic; for the short strings involved here the exact
comparisons against the thresholds coincide with the source's float
comparisons. -/

/-- Length of the longest common prefix. -/
def commonPre : List Char → List Char → Nat
  | a :: as, b :: bs => if a = b then commonPre as bs + 1 else 0
  | _, _ => 0

/-- `find_longest_match` over the whole strings: the triple `(i, j, k)` of the
longest matching block, preferring the earliest `i` and then the earliest `j`
(the fold only replaces the current best on a strictly larger size, and the
candidates are enumerated in lexicographic order). -/
def bestBlock (a b : List Char) : Nat × Nat × Nat :=
  (List.range a.length).foldl
    (fun best i =>
      (List.range b.length).foldl
        (fun best j =>
          let k := commonPre (a.drop i) (b.drop j)
          if k > best.2.2 then (i, j, k) else best)
        best)
    (0, 0, 0)

/-- Total matched characters, by fuel-bounded recursion.  Each recursive call
strictly decreases the length of the first list, so fuel `a.length + 1` (used
by `matchTotal`) always suffices. -/
def matchTotalF : Nat → List Char → List Char → Nat
  | 0, _, _ => 0
  | fuel + 1, a, b =>
    let ijk := bestBlock a b
    let i := ijk.1
    let j := ijk.2.1
    let k := ijk.2.2
    if k = 0 then 0
    else matchTotalF fuel (a.take i) (b.take j) + k +
      matchTotalF fuel (a.drop (i + k)) (b.drop (j + k))

/-- Ratcliff–Obershelp total match count. -/
def matchTotal (a b : List Char) : Nat :=
  matchTotalF (a.length + 1) a b

/-- `SequenceMatcher(None, a, b).ratio()` as an exact rational. -/
def simRatio (a b : String) : ℚ :=
  if a.length + b.length = 0 then 1
  else mkRat (2 * (matchTotal a.data b.data : Int)) (a.length + b.length)

/-! ## The phrase bank (`_load_phrase_bank`) -/

/-- The seed phrase bank of `_load_phrase_bank`, in dictionary insertion
order. -/
def phraseBank : List (String × List (String × String)) :=
  [("day1_greetings",
    [("ສະບາຍດີ", "Hello"),
     ("ຂອບໃຈ", "Thank you"),
     ("ຈົ່ງພູດຊ້າ", "Please speak slowly"),
     ("ທ່ານສະບາຍດີບໍ?", "How are you?"),
     ("ຂ້ອຍສຸກສະບາຍ", "I\x27m doing well"),
     ("ສະບາຍດີຕອນເຊົ້າ", "Good morning"),
     ("ສະບາຍດີຕອນແລງ", "Good evening"),
     ("ຂໍໂທດ", "Sorry"),
     ("ບໍ່ເປັນຫຍັງ", "You\x27re welcome")]),
   ("numbers_0_10",
    [("ສູນ", "0"),
     ("ໜຶ່ງ", "1"),
     ("ສອງ", "2")])]

/-- `self._phrase_bank.get(task, {})`. -/
def bankGet (task : String) : List (String × String) :=
  match phraseBank.find? (fun tp => tp.1 == task) with
  | some tp => tp.2
  | none => []

/-- All `(phrase, translation)` pairs in bank iteration order (tasks in
insertion order, then phrases in insertion order), as iterated by the two
matchers. -/
def bankEntries : List (String × String) :=
  (phraseBank.map (fun tp => tp.2)).flatten

/-- `phrases.get(text)` — exact dictionary lookup of a transcript in a task's
phrase dictionary. -/
def lookupGloss (phrases : List (String × String)) (text : String) : Option String :=
  match phrases.find? (fun pt => pt.1 == text) with
  | some pt => some pt.2
  | none => none

/-- `self.text_processor.segment(phrase).romanised`, normalised — the value
the `_romanised_cache` memoises in `_get_cached_romanised` (the cache is pure
memoisation and therefore modelled by the function itself). -/
def romanisedKey (phrase : String) : String :=
  normalizeRomanised (segmentRomanised phrase)

/-! ## The fuzzy matchers -/

/-- One step of the accumulator loop of `_find_phrase_by_translation`.  The
source tracks `best_phrase` and `best_translation` in two variables that are
always assigned together; they are carried here as one optional pair, with
`best_score` alongside. -/
def translationStep (normalized : String)
    (best : Option (String × String) × Nat) (pt : String × String) :
    Option (String × String) × Nat :=
  if pt.2 = "" then best
  else
    let candidate := normalizeKey pt.2
    if candidate = "" then best
    else
      let exactMatch := candidate = normalized
      let subsetMatch := containsSub normalized.data candidate.data ||
        containsSub candidate.data normalized.data
      if ¬ exactMatch ∧ ¬ (subsetMatch = true) then best
      else if candidate.length > best.2 then (some pt, candidate.length) else best

/-- `TutorEngine._find_phrase_by_translation`. -/
def findPhraseByTranslation (text : String) : Option String × Option String :=
  if text = "" then (none, none)
  else
    let normalized := normalizeKey text
    if normalized = "" then (none, none)
    else
      match (bankEntries.foldl (translationStep normalized) (none, 0)).1 with
      | some pt => (some pt.1, some pt.2)
      | none => (none, none)

/-- One step of the accumulator loop of `_find_phrase_by_romanised`:
skip phrases with an empty cached key, discard ratios below `0.55`, keep a new
candidate only on a strictly greater ratio. -/
def romanisedStep (normalizedQuery : String)
    (best : Option (String × String) × ℚ) (pt : String × String) :
    Option (String × String) × ℚ :=
  let key := romanisedKey pt.1
  if key = "" then best
  else
    let ratio := simRatio normalizedQuery key
    if ratio < mkRat 11 20 then best
    else if ratio > best.2 then (some pt, ratio) else best

/-- `TutorEngine._find_phrase_by_romanised`. -/
def findPhraseByRomanised (text : String) : Option String × Option String :=
  let normalizedQuery := normalizeRomanised text
  if normalizedQuery = "" then (none, none)
  else
    match (bankEntries.foldl (romanisedStep normalizedQuery) (none, 0)).1 with
    | some pt => (some pt.1, some pt.2)
    | none => (none, none)

/-! ## Python truthiness helpers

Python code such as `a or b` on optional strings treats both `None` and the
empty string as falsy; these helpers mirror that. -/

/-- Truthiness of an optional string: `some s` with `s` non-empty. -/
def optTruthy : Option String → Bool
  | some s => s != ""
  | none => false

/-- `a or b` where both sides are optional strings. -/
def pyOr (a b : Option String) : Option String :=
  if optTruthy a then a else b

/-- `a or b` where `a` is an optional string and `b` a plain string. -/
def pyOrS (a : Option String) (b : String) : String :=
  if optTruthy a then a.getD "" else b

/-- `a or b` on plain strings. -/
def strOr (a b : String) : String :=
  if a = "" then b else a

/-- Python `f"{x}"` on an optional string (`None` prints as `"None"`). -/
def optStr : Option String → String
  | some s => s
  | none => "None"

/-! ## Curriculum state (`TutorState` plus the engine's focus indices) -/

/-- The mutable engine state: the `TutorState` dataclass fields together with
the `_focus_indices` dictionary (total function with default `0`; the source's
insertion of a missing key with value `0` in `_current_focus` is a semantic
no-op under this representation).  `turn_count` exists in the source but is
never modified, and the `_romanised_cache` is pure memoisation of
`romanisedKey`, so neither is carried here. -/
structure EngineState where
  currentTask : String
  lastFocusPhrase : Option String
  lastFocusTranslation : Option String
  awaitingRepeat : Bool
  focusIndices : String → Nat

/-- The state built by `TutorEngine.__init__`. -/
def initState : EngineState :=
  { currentTask := "day1_greetings", lastFocusPhrase := none,
    lastFocusTranslation := none, awaitingRepeat := false,
    focusIndices := fun _ => 0 }

/-- `task_id or self.state.current_task` (an empty task id is falsy). -/
def orTask (taskId : Option String) (s : EngineState) : String :=
  match taskId with
  | some t => if t = "" then s.currentTask else t
  | none => s.currentTask

/-- `TutorEngine._current_focus`. -/
def currentFocus (s : EngineState) (taskId : Option String) :
    Option String × Option String :=
  let task := orTask taskId s
  let bank := bankGet task
  if bank.isEmpty then (none, none)
  else
    let index := min (s.focusIndices task) (bank.length - 1)
    match bank.get? index with
    | some pt => (some pt.1, some pt.2)
    | none => (none, none)

/-- `TutorEngine._advance_focus`. -/
def advanceFocus (s : EngineState) (taskId : Option String) : EngineState :=
  let task := orTask taskId s
  let bank := bankGet task
  if bank.isEmpty then s
  else
    let total := bank.length
    let currentIndex := s.focusIndices task
    if currentIndex + 1 < total then
      { s with focusIndices := fun t => if t = task then currentIndex + 1 else s.focusIndices t }
    else s

/-- `TutorEngine.mark_focus_prompted`. -/
def markFocusPrompted (s : EngineState) (phrase translation : Option String) :
    EngineState :=
  if ¬ optTruthy phrase then s
  else { s with lastFocusPhrase := phrase, lastFocusTranslation := translation,
                awaitingRepeat := true }

/-- `TutorEngine._register_success`. -/
def registerSuccess (s : EngineState) (taskId : Option String) : EngineState :=
  advanceFocus { s with awaitingRepeat := false } taskId

/-! ## One `process_audio` turn -/

/-- Direction reported by `TranslationService.translate`. -/
inductive TrDirection where
  | loEn
  | enLo
deriving DecidableEq, Repr

/-- The `TranslationResult` the translator would return (the `backend` field
does not influence the tutor logic and is omitted). -/
structure TrResult where
  text : String
  direction : TrDirection
deriving DecidableEq, Repr

/-- The per-turn inputs of `process_audio`: the task override argument and the
values the external collaborators (ASR readiness, VAD, ASR transcript,
translator) would produce for this audio buffer. -/
structure TurnInput where
  taskId : Option String
  asrReady : Bool
  hasSpeech : Bool
  asrText : String
  translateResult : Option TrResult
  translatorReady : Bool
deriving DecidableEq, Repr

/-- The `SegmentFeedback` schema of `models/schemas.py` (the fields
`process_audio` produces). -/
structure SegmentFeedback where
  laoText : String
  romanised : String
  translation : Option String
  corrections : List String
  praise : Option String
  reviewCardIds : List String
  focusPhrase : Option String
  focusTranslation : Option String
  focusRomanised : Option String
deriving DecidableEq, Repr

/-- Result of one `process_audio` call: the new engine state, the returned
feedback, plus observation fields recording what the turn did: the card ids
passed to `SrsRepository.log_review`, whether ASR transcription and the
translator were invoked, the final value of the local `success` flag, the
value of `awaiting_repeat` read by the awaiting-repeat match check (`none`
when that check was never reached), and the values of `focus_phrase` /
`translation` at the point where `review_card_ids` is computed (before the
final expected-phrase fallback). -/
structure TurnOutput where
  state : EngineState
  feedback : SegmentFeedback
  logReviews : List String
  transcribed : Bool
  translatorCalled : Bool
  success : Bool
  awaitingRead : Option Bool
  preFocusPhrase : Option String
  preTranslation : Option String

/-- Fixed message of the ASR-unavailable short circuit. -/
def msgAsrUnavailable : String :=
  "ລະບົບກຳລັງຕຽມການຮັບຟັງ – The speech recogniser is still preparing. Install the speech extras with `uv pip install \x27.[speech]\x27` and wait for the Whisper model download to finish."

/-- Fixed message of the no-speech short circuit. -/
def msgNoSpeech : String :=
  "ລອງເວົ້າອີກຄັ້ງ – I didn\x27t catch anything."

/-- Fixed message of the empty-transcript branch. -/
def msgTryRepeat : String :=
  "ຂໍໃຫ້ເວົ້າອີກຄັ້ງ – Try repeating the target phrase."

/-- Praise for the Lao-script success branch. -/
def praiseLao : String :=
  "ຍອດເຢັ່ຍ! Your pronunciation is improving."

/-- Praise for the awaiting-repeat success branch. -/
def praiseRepeat : String :=
  "ດີຫຼາຍ! Great job repeating the Lao phrase."

/-- The "Let's learn to say ..." correction. -/
def msgLearn (focusTranslation focusPhrase focusRomanised : String) : String :=
  "Let\x27s learn to say \x27" ++ focusTranslation ++ "\x27 in Lao: " ++ focusPhrase ++
    " (" ++ focusRomanised ++ ")."

/-- The "Let's practise ..." correction. -/
def msgPractise (focusTranslation focusPhrase focusRomanised : String) : String :=
  "Let\x27s practise \x27" ++ focusTranslation ++ "\x27 in Lao: " ++ focusPhrase ++
    " (" ++ focusRomanised ++ ")."

/-- The "We'll map your English phrase ..." correction. -/
def msgMap (translation : String) : String :=
  "We\x27ll map your English phrase to Lao together. Try saying the Lao for \x27" ++
    translation ++ "\x27."

/-- The "I heard English audio ..." correction. -/
def msgHeardEnglish : String :=
  "I heard English audio. Let\x27s try speaking the Lao phrase slowly together."

/-- The "Great! Let's build on that ..." correction. -/
def msgGreat (focusPhrase focusRomanised nextTranslationText : String) : String :=
  "Great! Let\x27s build on that. Our next phrase is “" ++ focusPhrase ++ "” (" ++
    focusRomanised ++ ") – " ++ nextTranslationText

/-- The "Let's focus on today's target phrase ..." hint. -/
def msgFocusHint : String :=
  "Let\x27s focus on today\x27s target phrase. Repeat after me."

/-- The extra note appended when the translator is not ready. -/
def msgDownloadNote : String :=
  " Our translation model is still downloading – run `uv pip install \x27.[llm]\x27` and allow the NLLB weights to finish syncing."

/-- The "Let's stay with ..." fallback correction. -/
def msgStay (focusTranslation focusPhrase focusRomanised : String) : String :=
  "Let\x27s stay with \x27" ++ focusTranslation ++ "\x27 for now. Repeat " ++
    focusPhrase ++ " (" ++ focusRomanised ++ ")."

/-- The task-override prologue of `process_audio` (`if task_id: ...`). -/
def overrideTask (s : EngineState) (inp : TurnInput) : EngineState :=
  if optTruthy inp.taskId then { s with currentTask := inp.taskId.getD "" } else s

/-- `self.text_processor.segment(expected_phrase).romanised if expected_phrase
else ""`. -/
def expectedRom (expectedPhrase : Option String) : String :=
  match expectedPhrase with
  | some p => segmentRomanised p
  | none => ""

/-- Output of the two early short circuits (ASR unavailable / no speech): a
feedback with empty text, one correction and no praise, and no other
activity. -/
def shortOut (s1 : EngineState) (msg : String) : TurnOutput :=
  { state := s1,
    feedback :=
      { laoText := "", romanised := "", translation := none,
        corrections := [msg], praise := none, reviewCardIds := [],
        focusPhrase := none, focusTranslation := none, focusRomanised := none },
    logReviews := [], transcribed := false, translatorCalled := false,
    success := false, awaitingRead := none, preFocusPhrase := none,
    preTranslation := none }

/-- Result of the gloss-resolution block (exact bank lookup, then the
translator). -/
structure ResolveOut where
  translation : Option String
  focusFromTranslation : Option String
  called : Bool
deriving DecidableEq, Repr

/-- Lines 302–331 of `tutor.py`: look the transcript up in the current task's
phrases; when that fails on a non-empty transcript, consult the translator.
`lo->en` output is accepted as the gloss; `en->lo` output contributes its
first Lao run as a candidate focus phrase, and the transcript itself becomes
the gloss (`translation = translation or asr_result.text` with `translation`
still `None`). -/
def resolveTranslation (s1 : EngineState) (text : String)
    (translateResult : Option TrResult) : ResolveOut :=
  let translation0 := lookupGloss (bankGet s1.currentTask) text
  if translation0 = none ∧ text ≠ "" then
    match translateResult with
    | none => { translation := translation0, focusFromTranslation := none, called := true }
    | some tr =>
      match tr.direction with
      | .loEn => { translation := some tr.text, focusFromTranslation := none, called := true }
      | .enLo =>
        { translation := pyOr translation0 (some text),
          focusFromTranslation := firstLaoRun tr.text, called := true }
  else { translation := translation0, focusFromTranslation := none, called := false }

/-- The working variables of the feedback-construction block of
`process_audio` (lines 333–339 of `tutor.py`), as updated by the matching
branches. -/
structure BranchOut where
  corrections : List String
  praise : Option String
  focusPhrase : Option String
  focusTranslation : Option String
  focusRomanised : Option String
  translation : Option String
  success : Bool
  completedFocus : Option String
  awaitingRead : Option Bool
deriving DecidableEq, Repr

/-- Lines 344–420 of `tutor.py`: the main matching branch for a non-empty
transcript.  Lao-script input is scored against the expected phrase at the
`0.75` threshold; otherwise the awaiting-repeat check (threshold `0.65`) runs
first, then the romanised matcher, the translation matcher, the
reverse-translation focus candidate, and the generic hints. -/
def mainBranch (s1 : EngineState) (expectedPhrase expectedTranslation : Option String)
    (expectedRomanised expectedNormalised : String)
    (translationA focusFromTranslation : Option String)
    (text segmentedRomanised : String) : BranchOut :=
  let heardNormalised := normalizeRomanised segmentedRomanised
  if containsLao text then
    if optTruthy expectedPhrase = true ∧ heardNormalised ≠ "" ∧ expectedNormalised ≠ "" ∧
        simRatio heardNormalised expectedNormalised ≥ mkRat 3 4 then
      { corrections := [], praise := some praiseLao, focusPhrase := expectedPhrase,
        focusTranslation := pyOr expectedTranslation translationA,
        focusRomanised := some (strOr expectedRomanised segmentedRomanised),
        translation := translationA, success := true,
        completedFocus := expectedPhrase, awaitingRead := none }
    else
      { corrections := [], praise := none, focusPhrase := some text,
        focusTranslation := translationA, focusRomanised := some segmentedRomanised,
        translation := translationA, success := false, completedFocus := none,
        awaitingRead := none }
  else
    let romanisedRes := findPhraseByRomanised text
    let matchedRes := findPhraseByTranslation text
    let heardAscii := normalizeRomanised text
    if s1.awaitingRepeat = true ∧ optTruthy expectedPhrase = true ∧
        expectedNormalised ≠ "" ∧ heardAscii ≠ "" ∧
        simRatio heardAscii expectedNormalised ≥ mkRat 13 20 then
      let ft := pyOr expectedTranslation (pyOr translationA (some text))
      { corrections := [], praise := some praiseRepeat, focusPhrase := expectedPhrase,
        focusTranslation := ft,
        focusRomanised := some (strOr expectedRomanised
          (segmentRomanised (expectedPhrase.getD ""))),
        translation := ft, success := true, completedFocus := expectedPhrase,
        awaitingRead := some s1.awaitingRepeat }
    else if optTruthy romanisedRes.1 then
      let ft := pyOr romanisedRes.2 (pyOr translationA (some text))
      let fr := segmentRomanised (romanisedRes.1.getD "")
      { corrections := [msgLearn (optStr ft) (optStr romanisedRes.1) fr],
        praise := none, focusPhrase := romanisedRes.1, focusTranslation := ft,
        focusRomanised := some fr, translation := ft, success := false,
        completedFocus := none, awaitingRead := some s1.awaitingRepeat }
    else if optTruthy matchedRes.1 then
      let ft := pyOr matchedRes.2 (pyOr translationA (some text))
      let fr := segmentRomanised (matchedRes.1.getD "")
      { corrections := [msgLearn (optStr ft) (optStr matchedRes.1) fr],
        praise := none, focusPhrase := matchedRes.1, focusTranslation := ft,
        focusRomanised := some fr, translation := ft, success := false,
        completedFocus := none, awaitingRead := some s1.awaitingRepeat }
    else if optTruthy focusFromTranslation then
      let ft := pyOr translationA (some text)
      let fr := segmentRomanised (focusFromTranslation.getD "")
      { corrections := [msgPractise (optStr ft) (optStr focusFromTranslation) fr],
        praise := none, focusPhrase := focusFromTranslation, focusTranslation := ft,
        focusRomanised := some fr, translation := ft, success := false,
        completedFocus := none, awaitingRead := some s1.awaitingRepeat }
    else if optTruthy translationA then
      { corrections := [msgMap (optStr translationA)], praise := none,
        focusPhrase := none, focusTranslation := none, focusRomanised := none,
        translation := translationA, success := false, completedFocus := none,
        awaitingRead := some s1.awaitingRepeat }
    else
      { corrections := [msgHeardEnglish], praise := none, focusPhrase := none,
        focusTranslation := none, focusRomanised := none,
        translation := translationA, success := false, completedFocus := none,
        awaitingRead := some s1.awaitingRepeat }

/-- Result of the success/review block: the possibly updated working
variables, the possibly advanced state, and the card ids logged to the SRS
store. -/
structure PostOut where
  br : BranchOut
  state : EngineState
  logs : List String

/-- Lines 422–459 of `tutor.py`.  On success, `_register_success` advances the
curriculum and the next focus phrase is announced.  Otherwise, with no gloss a
generic hint is appended.  In the remaining branch (gloss resolved, not a
success) the source computes a card id and guards `log_review` with
`if success:` — which is always false there, so the review is never actually
logged; the guard is kept verbatim. -/
def successBlock (s1 : EngineState) (taskId : Option String)
    (translatorReady : Bool) (br : BranchOut) (text : String) : PostOut :=
  if br.success then
    let s2 := registerSuccess s1 taskId
    let nxt := currentFocus s2 taskId
    if optTruthy nxt.1 then
      let ft := pyOr nxt.2 br.focusTranslation
      let fr := segmentRomanised (nxt.1.getD "")
      { br :=
          { br with
            focusPhrase := nxt.1, focusTranslation := ft,
            focusRomanised := some fr, translation := pyOr ft br.translation,
            corrections := br.corrections ++
              [msgGreat (optStr nxt.1) fr (pyOrS ft ("let\x27s keep going."))] },
        state := s2, logs := [] }
    else
      { br := { br with translation := pyOr br.focusTranslation br.translation },
        state := s2, logs := [] }
  else if br.translation = none then
    { br :=
        { br with
          corrections := br.corrections ++
            [msgFocusHint ++ (if translatorReady then "" else msgDownloadNote)] },
      state := s1, logs := [] }
  else
    let cardId := pyOrS br.completedFocus (pyOrS br.focusPhrase text)
    { br := br, state := s1, logs := if br.success then [cardId] else [] }

/-- Lines 461–502 of `tutor.py`: recompute a missing focus romanisation,
collect the review-card ids, fall back to the expected phrase when no focus
was set, and assemble the returned `SegmentFeedback`. -/
def assembleOutput (sOut : EngineState) (br2 : BranchOut)
    (expectedPhrase expectedTranslation : Option String)
    (expectedRomanised text segmentedRomanised : String)
    (logs : List String) (translatorCalled : Bool) : TurnOutput :=
  let focusRomanised2 :=
    if optTruthy br2.focusPhrase = true ∧ ¬ optTruthy br2.focusRomanised = true then
      some (segmentRomanised (br2.focusPhrase.getD ""))
    else br2.focusRomanised
  let reviewIds :=
    if optTruthy br2.focusPhrase then [br2.focusPhrase.getD ""]
    else if optTruthy br2.translation then [text]
    else []
  let final :=
    if ¬ optTruthy br2.focusPhrase = true ∧ optTruthy expectedPhrase = true then
      let ft := pyOr expectedTranslation br2.translation
      let fr := if expectedRomanised ≠ "" then some expectedRomanised else focusRomanised2
      let corr :=
        if br2.success then br2.corrections
        else br2.corrections ++ [msgStay (optStr ft) (optStr expectedPhrase) (optStr fr)]
      (expectedPhrase, ft, fr, pyOr ft br2.translation, corr)
    else
      (br2.focusPhrase, br2.focusTranslation, focusRomanised2, br2.translation,
        br2.corrections)
  { state := sOut,
    feedback :=
      { laoText := text, romanised := segmentedRomanised,
        translation := final.2.2.2.1, corrections := final.2.2.2.2,
        praise := br2.praise, reviewCardIds := reviewIds,
        focusPhrase := final.1,
        focusTranslation := pyOr final.2.1 final.2.2.2.1,
        focusRomanised := final.2.2.1 },
    logReviews := logs, transcribed := true, translatorCalled := translatorCalled,
    success := br2.success, awaitingRead := br2.awaitingRead,
    preFocusPhrase := br2.focusPhrase, preTranslation := br2.translation }

/-- `TutorEngine.process_audio`, as a pure transition on the engine state. -/
def processAudio (s0 : EngineState) (inp : TurnInput) : TurnOutput :=
  let s1 := overrideTask s0 inp
  if inp.asrReady = false then shortOut s1 msgAsrUnavailable
  else
    let expected := currentFocus s1 inp.taskId
    let expectedRomanised := expectedRom expected.1
    let expectedNormalised := normalizeRomanised expectedRomanised
    if inp.hasSpeech = false then shortOut s1 msgNoSpeech
    else
      let text := inp.asrText
      let segmentedRomanised := segmentRomanised text
      let resolved := resolveTranslation s1 text inp.translateResult
      let br :=
        if text = "" then
          { corrections := [msgTryRepeat], praise := none, focusPhrase := none,
            focusTranslation := none, focusRomanised := none,
            translation := resolved.translation, success := false,
            completedFocus := none, awaitingRead := none : BranchOut }
        else
          mainBranch s1 expected.1 expected.2 expectedRomanised expectedNormalised
            resolved.translation resolved.focusFromTranslation text segmentedRomanised
      let post :=
        if text = "" then { br := br, state := s1, logs := [] : PostOut }
        else successBlock s1 inp.taskId inp.translatorReady br text
      assembleOutput post.state post.br expected.1 expected.2 expectedRomanised
        text segmentedRomanised post.logs resolved.called

/-- A sequence of `process_audio` turns, collecting every turn's output. -/
def runTrace : EngineState → List TurnInput → List TurnOutput
  | _, [] => []
  | s, inp :: rest =>
    let out := processAudio s inp
    out :: runTrace out.state rest

/-! ## The conversation service (`llm.py`) -/

/-- Python `"sep".join(parts)`. -/
def joinSep (sep : String) : List String → String
  | [] => ""
  | x :: xs => xs.foldl (fun acc y => acc ++ sep ++ y) x

/-- Python `list[-n:]`. -/
def lastN (n : Nat) (l : List α) : List α :=
  l.drop (l.length - n)

/-- Python `str.splitlines` restricted to the `\n`, `\r\n` and `\r`
terminators (the exotic Unicode line boundaries are not modelled).  A trailing
terminator does not produce a final empty line, as in Python. -/
def splitLinesAux : List Char → List Char → List (List Char)
  | [], acc => [acc.reverse]
  | '\r' :: '\n' :: rest, acc => acc.reverse :: splitLinesAux rest []
  | '\r' :: rest, acc => acc.reverse :: splitLinesAux rest []
  | '\n' :: rest, acc => acc.reverse :: splitLinesAux rest []
  | c :: rest, acc => splitLinesAux rest (c :: acc)

/-- Python `str.splitlines` on a `String`. -/
def pySplitLines (s : String) : List String :=
  if s = "" then []
  else
    let r := (splitLinesAux s.data []).map String.mk
    match s.data.getLast? with
    | some c => if c = '\n' ∨ c = '\r' then r.dropLast else r
    | none => r

/-- Python `str.capitalize` (ASCII): first character uppercased, the rest
lowercased — only ever applied to the roles `"user"`/`"assistant"` here. -/
def pyCapitalize (s : String) : String :=
  match s.data with
  | [] => ""
  | c :: cs =>
    let up := if 97 ≤ c.toNat ∧ c.toNat ≤ 122 then Char.ofNat (c.toNat - 32) else c
    String.mk (up :: (cs.map pyLowerChar).flatten)

/-- `re.match(r"^(system|user|assistant)\s*:\s*", stripped, re.IGNORECASE)`:
the lowercased line starts with one of the role words, then optional
whitespace, then a colon. -/
def isRoleLine (l : String) : Bool :=
  let low := (pyLower l).data
  [("system" : String), "user", "assistant"].any (fun w =>
    w.data.isPrefixOf low &&
      ((low.drop w.length).dropWhile pyIsSpace).head? == some ':')

/-- `re.split(r"(?<=[.!?])\s+", text)`: a maximal whitespace run preceded by
`.`, `!` or `?` separates sentences.  Fuel-bounded; every step consumes at
least one character, so fuel `length + 1` (used by `splitSentences`)
suffices. -/
def splitSentencesF : Nat → Option Char → List Char → List Char → List (List Char)
  | 0, _, acc, _ => [acc.reverse]
  | _ + 1, _, acc, [] => [acc.reverse]
  | fuel + 1, prev, acc, c :: rest =>
    if pyIsSpace c ∧ (prev = some '.' ∨ prev = some '!' ∨ prev = some '?') then
      acc.reverse :: splitSentencesF fuel none [] (rest.dropWhile pyIsSpace)
    else
      splitSentencesF fuel (some c) (c :: acc) rest

/-- Sentence splitting on a `String`. -/
def splitSentences (s : String) : List String :=
  (splitSentencesF (s.data.length + 1) none [] s.data).map String.mk

/-- `ConversationService._clean_generated_text`. -/
def cleanGeneratedText (text : String) : String :=
  if text = "" then ""
  else
    let lines := ((pySplitLines text).map pyStrip).filter
      (fun l => l ≠ "" && !(isRoleLine l))
    let cleaned := joinSep " " lines
    if cleaned = "" then ""
    else
      let sentences := splitSentences cleaned
      let cleaned2 :=
        if sentences.length > 2 then pyStrip (joinSep " " (sentences.take 2))
        else cleaned
      pyStrip cleaned2

/-- The Lao run (possibly with embedded whitespace) matched by the pattern
`([຀-໿]+(?:[຀-໿\s]+)?)`: from the first Lao character,
the maximal run of Lao-or-whitespace characters. -/
def laoRunWithSpaces (l : List Char) : Option (List Char) :=
  let rest := l.dropWhile (fun c => !(isLaoChar c))
  if rest.isEmpty then none
  else some (rest.takeWhile (fun c => isLaoChar c || pyIsSpace c))

/-- `ConversationService._extract_lao_line`: the first stripped non-empty line
containing Lao script yields its matched Lao run. -/
def extractLaoLine (text : String) : Option String :=
  (pySplitLines text).findSome? (fun line =>
    let candidate := pyStrip line
    if candidate = "" then none
    else (laoRunWithSpaces candidate.data).map String.mk)

/-- A history entry (`{"role": ..., "content": ...}`). -/
structure ChatMsg where
  role : String
  content : String
deriving DecidableEq, Repr

/-- The `ConversationResult` dataclass. -/
structure ConversationResult where
  replyText : String
  history : List ChatMsg
  focusPhrase : Option String
  focusTranslation : Option String
  spokenText : Option String
  debug : List (String × String)
deriving DecidableEq, Repr

/-- Behaviour of the optional generative backend on this turn: not configured,
a successful generation returning `outputs[0]["generated_text"]`, or a raised
exception with its message. -/
inductive GenBackend where
  | unavailable
  | ok (generated : String)
  | failed (reason : String)
deriving DecidableEq, Repr

/-- The fixed system persona of `ConversationService`. -/
def systemPrompt : String :=
  "You are a warm, encouraging Lao language teacher who is fluent in English. Always present Lao phrases alongside a romanisation and an English translation so the learner understands the meaning."

/-- The extra instruction appended to the prompt before generation. -/
def promptSuffix : String :=
  "\nSystem: Craft one or two additional encouraging English sentences with specific pronunciation or tone tips. Always restate the Lao focus phrase with its romanisation and English meaning."

/-- `ConversationService._select_focus_phrase` over the bank the service was
constructed with. -/
def selectFocusPhrase (cbank : List (String × List (String × String)))
    (taskId : Option String) : Option String × Option String :=
  let bank : List (String × String) :=
    match taskId with
    | some t =>
      if t ≠ "" ∧ (cbank.find? (fun tp => tp.1 == t)).isSome then
        match cbank.find? (fun tp => tp.1 == t) with
        | some tp => tp.2
        | none => []
      else
        match cbank.head? with
        | some tp => tp.2
        | none => []
    | none =>
      match cbank.head? with
      | some tp => tp.2
      | none => []
  match bank.head? with
  | some pt => (some pt.1, some pt.2)
  | none => (none, none)

/-- `ConversationService._romanise` (empty input gives `""`, otherwise the
segmenter's romanisation). -/
def romaniseOpt (t : Option String) : String :=
  match t with
  | some s => if s = "" then "" else segmentRomanised s
  | none => ""

/-- Fixed caveat line used when a correction mentions the speech
recogniser. -/
def msgStillDownloading : String :=
  "I\x27m still downloading the speech models so I might miss what you say. Keep the server running and I\x27ll start listening as soon as Whisper finishes syncing."

/-- Fixed final line of every summary. -/
def msgToneReminder : String :=
  "Repeat it aloud and pay close attention to the tone contour."

/-- `ConversationService._build_summary`.  Returns the summary string; the
local reassignment of `focus_phrase`/`focus_translation` inside the source
only affects the summary's own focus line, which is reproduced here. -/
def buildSummary (observation : Option SegmentFeedback)
    (focusPhrase0 focusTranslation0 : Option String) : String :=
  let lines0 : List String :=
    match observation with
    | some obs =>
      if obs.corrections.any (fun h =>
          containsSub (pyLower h).data ("speech recogniser").data) then
        [msgStillDownloading]
      else []
    | none => []
  let step1 :=
    match observation with
    | some obs =>
      if obs.laoText ≠ "" then
        let observedTranslation := pyOrS obs.translation ("We\x27ll learn this meaning together.")
        let observedRomanised := strOr obs.romanised (romaniseOpt (some obs.laoText))
        let line :=
          if containsLao obs.laoText then
            let romanisedNote :=
              if observedRomanised ≠ "" then " (" ++ observedRomanised ++ ")" else ""
            "I heard you say \"" ++ obs.laoText ++ "\"" ++ romanisedNote ++
              ". In English, that means \"" ++ observedTranslation ++ "\"."
          else
            "I heard you say \"" ++ obs.laoText ++
              "\" in English. Let\x27s express that in Lao together."
        if ¬ optTruthy focusPhrase0 = true then
          ([line], pyOr obs.focusPhrase (some obs.laoText),
            pyOr obs.focusTranslation (pyOr obs.translation focusTranslation0))
        else ([line], focusPhrase0, focusTranslation0)
      else ([], focusPhrase0, focusTranslation0)
    | none => ([], focusPhrase0, focusTranslation0)
  let lines1 := step1.1
  let focusPhrase1 := step1.2.1
  let focusTranslation1 := step1.2.2
  let lines2 : List String :=
    if optTruthy focusPhrase1 then
      let fr0 :=
        match observation with
        | some obs => obs.focusRomanised
        | none => none
      let fr := if ¬ optTruthy fr0 = true then some (romaniseOpt focusPhrase1) else fr0
      let romanisedNote := if optTruthy fr then " (" ++ optStr fr ++ ")" else ""
      let englishGloss := pyOrS focusTranslation1 ("our target phrase today.")
      ["Let\x27s practise \"" ++ optStr focusPhrase1 ++ "\"" ++ romanisedNote ++
        " – \"" ++ englishGloss ++ "\"."]
    else []
  joinSep " " (lines0 ++ lines1 ++ lines2 ++ [msgToneReminder])

/-- `ConversationService._format_prompt`. -/
def formatPrompt (history : List ChatMsg) (userMessage : String)
    (focusPhrase focusTranslation : Option String) : String :=
  let conversation :=
    ((lastN 8 history).filter (fun m =>
      (m.role == "user" || m.role == "assistant") && m.content ≠ "")) ++
      [{ role := "user", content := userMessage : ChatMsg }]
  let promptParts :=
    ["System: " ++ systemPrompt] ++
      (if optTruthy focusPhrase then
        ["System: Today\x27s focus phrase is \x27" ++ optStr focusPhrase ++
          "\x27 which means \x27" ++ pyOrS focusTranslation ("...") ++ "\x27."]
      else []) ++
      conversation.map (fun item => pyCapitalize item.role ++ ": " ++ item.content) ++
      ["Assistant:"]
  joinSep "\n" promptParts

/-- `ConversationService._fallback_reply` (the unused `user_message` argument
is dropped): the scripted reply and the phrase to speak. -/
def fallbackReply (focusPhrase focusTranslation : Option String) :
    String × Option String :=
  if ¬ optTruthy focusPhrase = true then
    ("ສະບາຍດີ! I can guide you through Lao basics once vocabulary is loaded. Ask me about greetings or numbers to begin.", none)
  else
    ("ມາຝຶກກັນ! Repeat after me: " ++ optStr focusPhrase ++ ". It means " ++
      pyOrS focusTranslation ("this is our target phrase today") ++
      ". Focus on the tone contour and say it once more.", focusPhrase)

/-- `ConversationService.generate`, parameterised by the bank the service was
constructed with, the configured model name, and the behaviour of the
generative backend on this turn.  An empty or whitespace-only message raises
`ValueError("Message must not be empty")`, modelled as `Except.error`. -/
def generate (cbank : List (String × List (String × String))) (modelName : String)
    (backend : GenBackend) (history : List ChatMsg) (userMessage : String)
    (taskId : Option String) (observation : Option SegmentFeedback) :
    Except String ConversationResult :=
  if pyStrip userMessage = "" then Except.error "Message must not be empty"
  else
    let sel := selectFocusPhrase cbank taskId
    let focusPair :=
      match observation with
      | some obs =>
        if optTruthy obs.focusPhrase then
          (obs.focusPhrase,
            if optTruthy obs.focusTranslation then obs.focusTranslation
            else if optTruthy obs.translation then obs.translation
            else sel.2)
        else if obs.laoText ≠ "" ∧ containsLao obs.laoText = true then
          (some obs.laoText,
            if optTruthy obs.translation then obs.translation else sel.2)
        else sel
      | none => sel
    let focusPhrase := focusPair.1
    let focusTranslation := focusPair.2
    let summary := buildSummary observation focusPhrase focusTranslation
    let introduction :=
      if history.isEmpty then
        let introFocus := pyOr focusPhrase
          (match observation with | some o => o.focusPhrase | none => none)
        let introTranslation := pyOr focusTranslation
          (match observation with | some o => o.focusTranslation | none => none)
        let base := "Sabaidee! I\x27m your Lao tutor. We\x27ll take things step by step."
        pyStrip (if optTruthy introFocus then
            base ++ " Our first focus is “" ++ optStr introFocus ++ "” (" ++
              romaniseOpt introFocus ++ ") – " ++
              pyOrS introTranslation ("a friendly greeting.")
          else base)
      else ""
    let reply0 := joinSep "\n\n" ([introduction, summary].filter (fun p => p ≠ ""))
    let outcome :=
      match backend with
      | GenBackend.unavailable =>
        let fb := fallbackReply focusPhrase focusTranslation
        (if fb.1 ≠ "" then summary ++ "\n\n" ++ fb.1 else summary, fb.2,
          [(("backend" : String), ("fallback" : String))])
      | GenBackend.ok generated =>
        let prompt := formatPrompt history userMessage focusPhrase focusTranslation ++
          promptSuffix
        let llmTail := cleanGeneratedText
          (strOr (pyStrip (String.mk (generated.data.drop prompt.length)))
            (pyStrip generated))
        let reply := if llmTail ≠ "" then summary ++ "\n\n" ++ llmTail else reply0
        (reply, extractLaoLine reply,
          [(("backend" : String), ("transformers" : String)), (("model" : String), modelName)])
      | GenBackend.failed reason =>
        let fb := fallbackReply focusPhrase focusTranslation
        (summary ++ "\n\n" ++ fb.1, fb.2,
          [(("backend" : String), ("fallback" : String)), (("reason" : String), reason)])
    let reply := outcome.1
    let spoken1 := outcome.2.1
    let debug := outcome.2.2
    let spoken2 := if ¬ optTruthy spoken1 = true then extractLaoLine reply else spoken1
    let spoken3 :=
      if ¬ optTruthy spoken2 = true then
        let e := firstLaoRun (pyOrS focusPhrase "")
        if optTruthy e then e
        else if optTruthy focusPhrase then focusPhrase
        else none
      else spoken2
    let spokenFinal :=
      if optTruthy spoken3 = true ∧ containsLao (optStr spoken3) = false ∧
          optTruthy focusPhrase = true ∧ containsLao (optStr focusPhrase) = true then
        focusPhrase
      else spoken3
    let updatedHistory := lastN 8 history ++
      [{ role := "user", content := userMessage : ChatMsg },
        { role := "assistant", content := reply : ChatMsg }]
    Except.ok
      { replyText := reply, history := updatedHistory, focusPhrase := focusPhrase,
        focusTranslation := focusTranslation, spokenText := spokenFinal,
        debug := debug }

/-! ## Spec-side definitions

The following two definitions transcribe the *specification's* description of
the matchers (spec §4.2), to be compared with the source-derived
`findPhraseByTranslation` / `findPhraseByRomanised` above. -/

/-- Generic selection step as performed by both matcher loops: a qualifying
element replaces the current best exactly when its score is strictly
greater. -/
def bestStep {α β : Type} [LinearOrder β] (q : α → Bool) (f : α → β)
    (best : Option α × β) (e : α) : Option α × β :=
  if q e then (if f e > best.2 then (some e, f e) else best) else best

/-- Running argmax keeping the first maximiser. -/
def argmaxFold {α β : Type} [LinearOrder β] (f : α → β) (x : α) (xs : List α) : α :=
  xs.foldl (fun m e => if f e > f m then e else m) x

/-- Spec-side selection: filter the qualifying candidates, compute the maximal
score, and return the first candidate achieving it (`none` when nothing
qualifies). -/
def specSelect {α β : Type} [LinearOrder β] [DecidableEq β]
    (q : α → Bool) (f : α → β) (l : List α) : Option α :=
  match l.filter q with
  | [] => none
  | x :: xs =>
    let best := xs.foldl (fun acc e => max acc (f e)) (f x)
    (x :: xs).find? (fun e => decide (f e = best))

/-- Spec §4.2 qualification for `matchByTranslation`: the normalised gloss
equals the normalised query or one is a substring of the other. -/
def specQualifiesT (normalized : String) (pt : String × String) : Bool :=
  let candidate := normalizeKey pt.2
  candidate == normalized || containsSub normalized.data candidate.data ||
    containsSub candidate.data normalized.data

/-- The qualification actually tested by `translationStep`: additionally the
raw gloss and its normalisation must be non-empty (the loop `continue`s on
them). -/
def qCodeT (normalized : String) (pt : String × String) : Bool :=
  !(pt.2 == "") && !(normalizeKey pt.2 == "") &&
    (normalizeKey pt.2 == normalized ||
      containsSub normalized.data (normalizeKey pt.2).data ||
      containsSub (normalizeKey pt.2).data normalized.data)

/-- Score used by the translation matcher: the normalised gloss length. -/
def scoreT (pt : String × String) : Nat :=
  (normalizeKey pt.2).length

/-- The qualification actually tested by `romanisedStep`: a non-empty cached
key whose ratio is not below the threshold. -/
def qCodeR (normalizedQuery : String) (pt : String × String) : Bool :=
  !(romanisedKey pt.1 == "") &&
    !(simRatio normalizedQuery (romanisedKey pt.1) < mkRat 11 20)

/-- Score used by the romanised matcher: the similarity ratio against the
query. -/
def scoreR (normalizedQuery : String) (pt : String × String) : ℚ :=
  simRatio normalizedQuery (romanisedKey pt.1)

/-- Modelled from the spec's words (§4.2 `matchByTranslation`): among
qualifying candidates keep the one with the longest normalised gloss,
tie-break first encountered in bank iteration order; `(None, None)` on empty
input or when no candidate qualifies. -/
def specMatchByTranslation (text : String) : Option String × Option String :=
  if text = "" ∨ normalizeKey text = "" then (none, none)
  else
    match specSelect (specQualifiesT (normalizeKey text)) scoreT bankEntries with
    | some pt => (some pt.1, some pt.2)
    | none => (none, none)

/-- Spec §4.2 qualification for `matchByRomanized`: the candidate's cached
normalised romanisation scores at least `0.55` against the normalised
query. -/
def specQualifiesR (normalizedQuery : String) (pt : String × String) : Bool :=
  simRatio normalizedQuery (romanisedKey pt.1) ≥ mkRat 11 20

/-- Modelled from the spec's words (§4.2 `matchByRomanized`): discard
candidates scoring below `0.55`, keep the highest-scoring candidate with ties
keeping the first found; `(None, None)` when the normalised query is empty or
nothing clears the threshold. -/
def specMatchByRomanized (text : String) : Option String × Option String :=
  let normalizedQuery := normalizeRomanised text
  if normalizedQuery = "" then (none, none)
  else
    match specSelect (specQualifiesR normalizedQuery) (scoreR normalizedQuery)
        bankEntries with
    | some pt => (some pt.1, some pt.2)
    | none => (none, none)

/-! ## Derived predicates and concrete scenario inputs -/

/-- The condition under which a `process_audio` turn sets its `success` flag:
the turn reaches the matching stage (ASR ready, speech detected, non-empty
transcript) and either the Lao-script similarity check clears the `0.75`
threshold or the awaiting-repeat check clears the `0.65` threshold. -/
def successCond (s : EngineState) (inp : TurnInput) : Bool :=
  let s1 := overrideTask s inp
  let expected := currentFocus s1 inp.taskId
  let expectedNormalised := normalizeRomanised (expectedRom expected.1)
  let text := inp.asrText
  if inp.asrReady = false then false
  else if inp.hasSpeech = false then false
  else if text = "" then false
  else if containsLao text then
    decide (optTruthy expected.1 = true ∧
      normalizeRomanised (segmentRomanised text) ≠ "" ∧ expectedNormalised ≠ "" ∧
      simRatio (normalizeRomanised (segmentRomanised text)) expectedNormalised ≥ mkRat 3 4)
  else
    decide (s1.awaitingRepeat = true ∧ optTruthy expected.1 = true ∧
      expectedNormalised ≠ "" ∧ normalizeRomanised text ≠ "" ∧
      simRatio (normalizeRomanised text) expectedNormalised ≥ mkRat 13 20)

/-- The focus-index invariant: for every task with at least one phrase the
stored index stays strictly below the number of phrases. -/
def FocusInv (s : EngineState) : Prop :=
  ∀ t, 1 ≤ (bankGet t).length → s.focusIndices t < (bankGet t).length

/-- A turn whose transcript is exactly the expected focus phrase (ASR ready,
speech present, translator idle): a successful repeat. -/
def inpLaoRepeat : TurnInput :=
  { taskId := none, asrReady := true, hasSpeech := true, asrText := "ສະບາຍດີ",
    translateResult := none, translatorReady := false }

/-- A turn with speech but an empty transcript. -/
def inpEmptyTranscript : TurnInput :=
  { taskId := none, asrReady := true, hasSpeech := true, asrText := "",
    translateResult := none, translatorReady := false }

/-- A turn with unmatched ASCII gibberish as transcript. -/
def inpGibberish : TurnInput :=
  { taskId := none, asrReady := true, hasSpeech := true, asrText := "zzz",
    translateResult := none, translatorReady := false }

/-- A silent turn (VAD reports no speech). -/
def inpNoSpeech : TurnInput :=
  { taskId := none, asrReady := true, hasSpeech := false, asrText := "",
    translateResult := none, translatorReady := false }

/-- The engine state right after the initial focus phrase has been prompted
(`mark_focus_prompted` sets `awaiting_repeat`). -/
def statePrompted : EngineState :=
  markFocusPrompted initState (some "ສະບາຍດີ") (some "Hello")

/-- A seven-entry conversation history. -/
def historySeven : List ChatMsg :=
  List.replicate 7 { role := "user", content := "x" }

/-! ## Basic string lemmas -/

lemma data_ne_nil_of_ne {s : String} (h : s ≠ "") : s.data ≠ [] :=
  fun hd => h (String.ext hd)

lemma ne_empty_of_length_pos {s : String} (h : 0 < s.length) : s ≠ "" := by
  intro he
  subst he
  simp at h

lemma length_pos_of_ne {s : String} (h : s ≠ "") : 0 < s.length :=
  List.length_pos.mpr (data_ne_nil_of_ne h)

lemma length_append_left_le (a b : String) : a.length ≤ (a ++ b).length := by
  rw [String.length_append]
  exact Nat.le_add_right _ _

/-! ## `joinSep` lemmas (non-emptiness of joined summaries) -/

lemma joinSep_foldl_le (sep : String) :
    ∀ (xs : List String) (a : String),
      a.length ≤ (xs.foldl (fun acc y => acc ++ sep ++ y) a).length
  | [], _ => le_refl _
  | y :: xs, a => by
    simp only [List.foldl_cons]
    exact le_trans (le_trans (length_append_left_le a sep)
      (length_append_left_le (a ++ sep) y)) (joinSep_foldl_le sep xs (a ++ sep ++ y))

lemma joinSep_foldl_mem_le (sep : String) :
    ∀ (xs : List String) (a x : String), x ∈ xs →
      x.length ≤ (xs.foldl (fun acc y => acc ++ sep ++ y) a).length
  | [], _, _, h => absurd h (List.not_mem_nil _)
  | y :: xs, a, x, h => by
    simp only [List.foldl_cons]
    rcases List.mem_cons.mp h with rfl | hx
    · refine le_trans ?_ (joinSep_foldl_le sep xs (a ++ sep ++ x))
      rw [String.length_append]
      exact Nat.le_add_left _ _
    · exact joinSep_foldl_mem_le sep xs (a ++ sep ++ y) x hx

lemma joinSep_mem_le (sep : String) (l : List String) (x : String) (h : x ∈ l) :
    x.length ≤ (joinSep sep l).length := by
  cases l with
  | nil => exact absurd h (List.not_mem_nil _)
  | cons a xs =>
    rcases List.mem_cons.mp h with rfl | hx
    · exact joinSep_foldl_le sep xs x
    · exact joinSep_foldl_mem_le sep xs a x hx

lemma buildSummary_ne (observation : Option SegmentFeedback)
    (fp ft : Option String) : buildSummary observation fp ft ≠ "" := by
  apply ne_empty_of_length_pos
  have hmem : msgToneReminder ∈
      (match observation with
        | some obs =>
          if obs.corrections.any (fun h =>
              containsSub (pyLower h).data ("speech recogniser").data) then
            [msgStillDownloading]
          else []
        | none => []) ++ [] ++ [] ++ [msgToneReminder] := by simp
  have hlen : 0 < msgToneReminder.length := by decide
  calc 0 < msgToneReminder.length := hlen
    _ ≤ _ := by
      unfold buildSummary
      exact joinSep_mem_le " " _ msgToneReminder (by simp)

/-! ## Generic argmax-selection lemmas -/

lemma le_foldl_max {α β : Type} [LinearOrder β] (f : α → β) :
    ∀ (xs : List α) (b : β), b ≤ xs.foldl (fun acc e => max acc (f e)) b
  | [], _ => le_refl _
  | e :: xs, b => by
    simp only [List.foldl_cons]
    exact le_trans (le_max_left b (f e)) (le_foldl_max f xs (max b (f e)))

lemma f_argmaxFold {α β : Type} [LinearOrder β] (f : α → β) :
    ∀ (xs : List α) (x : α),
      f (argmaxFold f x xs) = xs.foldl (fun acc e => max acc (f e)) (f x)
  | [], _ => rfl
  | e :: xs, x => by
    simp only [argmaxFold, List.foldl_cons]
    by_cases h : f e > f x
    · rw [max_eq_right (le_of_lt h), if_pos h]
      exact f_argmaxFold f xs e
    · rw [max_eq_left (le_of_not_lt h), if_neg h]
      exact f_argmaxFold f xs x

lemma argmaxFold_cons {α β : Type} [LinearOrder β] (f : α → β) (x e : α) (xs : List α) :
    argmaxFold f x (e :: xs) = argmaxFold f (if f e > f x then e else x) xs := by
  simp [argmaxFold]

lemma find_max_eq {α β : Type} [LinearOrder β] [DecidableEq β] (f : α → β) :
    ∀ (xs : List α) (x : α),
      (x :: xs).find?
          (fun e => decide (f e = xs.foldl (fun acc e => max acc (f e)) (f x))) =
        some (argmaxFold f x xs)
  | [], x => by simp [argmaxFold, List.find?]
  | e :: xs, x => by
    rw [argmaxFold_cons]
    by_cases h : f e > f x
    · rw [if_pos h]
      have hfold : (e :: xs).foldl (fun acc y => max acc (f y)) (f x) =
          xs.foldl (fun acc y => max acc (f y)) (f e) := by
        simp only [List.foldl_cons]
        rw [max_eq_right (le_of_lt h)]
      have hxe : f x < xs.foldl (fun acc y => max acc (f y)) (f e) :=
        lt_of_lt_of_le h (le_foldl_max f xs (f e))
      rw [hfold]
      rw [List.find?_cons_of_neg _ (by simp [ne_of_lt hxe])]
      exact find_max_eq f xs e
    · rw [if_neg h]
      have hfold : (e :: xs).foldl (fun acc y => max acc (f y)) (f x) =
          xs.foldl (fun acc y => max acc (f y)) (f x) := by
        simp only [List.foldl_cons]
        rw [max_eq_left (le_of_not_lt h)]
      rw [hfold]
      have ih := find_max_eq f xs x
      by_cases hx : f x = xs.foldl (fun acc y => max acc (f y)) (f x)
      · rw [List.find?_cons_of_pos _ (by simp only [decide_eq_true_eq]; exact hx)]
        rw [List.find?_cons_of_pos _ (by simp only [decide_eq_true_eq]; exact hx)] at ih
        exact ih
      · have hfe : ¬ f e = xs.foldl (fun acc y => max acc (f y)) (f x) := by
          intro heq
          exact hx (le_antisymm (le_foldl_max f xs (f x))
            (heq ▸ le_of_not_lt h))
        rw [List.find?_cons_of_neg _ (by simp [hx]),
          List.find?_cons_of_neg _ (by simp [hfe])]
        rw [List.find?_cons_of_neg _ (by simp [hx])] at ih
        exact ih

lemma foldl_bestStep_some {α β : Type} [LinearOrder β] (q : α → Bool) (f : α → β) :
    ∀ (l : List α) (x : α),
      l.foldl (bestStep q f) (some x, f x) =
        (some (argmaxFold f x (l.filter q)), f (argmaxFold f x (l.filter q)))
  | [], x => by simp [argmaxFold]
  | e :: l, x => by
    simp only [List.foldl_cons, bestStep]
    by_cases hq : q e = true
    · rw [List.filter_cons_of_pos hq, argmaxFold_cons]
      by_cases h : f e > f x
      · simp only [if_pos hq, if_pos h]
        exact foldl_bestStep_some q f l e
      · simp only [if_pos hq, if_neg h]
        exact foldl_bestStep_some q f l x
    · rw [List.filter_cons_of_neg hq]
      simp only [if_neg hq]
      exact foldl_bestStep_some q f l x

lemma foldl_bestStep_none {α β : Type} [LinearOrder β] (q : α → Bool) (f : α → β) :
    ∀ (l : List α) (b : β), (∀ e ∈ l, q e = true → b < f e) →
      l.foldl (bestStep q f) (none, b) =
        (match l.filter q with
          | [] => ((none : Option α), b)
          | x :: xs => (some (argmaxFold f x xs), f (argmaxFold f x xs)))
  | [], _, _ => by simp
  | e :: l, b, h => by
    simp only [List.foldl_cons, bestStep]
    by_cases hq : q e = true
    · have hb : (some (e : α), f e).2 > (none (α := α), b).2 :=
        h e (List.mem_cons_self e l) hq
      rw [List.filter_cons_of_pos hq]
      simp only [if_pos hq, if_pos hb]
      exact foldl_bestStep_some q f l e
    · rw [List.filter_cons_of_neg hq]
      simp only [if_neg hq]
      exact foldl_bestStep_none q f l b
        (fun e' he' => h e' (List.mem_cons_of_mem _ he'))

lemma foldl_bestStep_fst_eq_specSelect {α β : Type} [LinearOrder β] [DecidableEq β]
    (q : α → Bool) (f : α → β) (l : List α) (b : β)
    (h : ∀ e ∈ l, q e = true → b < f e) :
    (l.foldl (bestStep q f) (none, b)).1 = specSelect q f l := by
  rw [foldl_bestStep_none q f l b h]
  unfold specSelect
  cases hf : l.filter q with
  | nil => simp
  | cons x xs =>
    simp only []
    rw [find_max_eq f xs x]

lemma specSelect_congr {α β : Type} [LinearOrder β] [DecidableEq β]
    {q q' : α → Bool} (f : α → β) {l : List α} (h : l.filter q = l.filter q') :
    specSelect q f l = specSelect q' f l := by
  unfold specSelect
  rw [h]

/-! ## The translation matcher agrees with its specification -/

lemma translationStep_eq (n : String) :
    translationStep n = bestStep (qCodeT n) scoreT := by
  funext best pt
  unfold translationStep bestStep qCodeT scoreT
  by_cases h1 : pt.2 = ""
  · simp [h1]
  · by_cases h2 : normalizeKey pt.2 = ""
    · simp [h1, h2]
    · by_cases h3 : normalizeKey pt.2 = n
      · simp [h1, h2, h3]
      · by_cases h4 : (containsSub n.data (normalizeKey pt.2).data ||
            containsSub (normalizeKey pt.2).data n.data) = true
        · simp only [Bool.or_eq_true] at h4
          rcases h4 with h4 | h4 <;> simp [h1, h2, h3, h4]
        · simp only [Bool.or_eq_true, not_or] at h4
          simp [h1, h2, h3, h4.1, h4.2]

lemma qCodeT_pos (n : String) (pt : String × String) (h : qCodeT n pt = true) :
    (0 : Nat) < scoreT pt := by
  unfold qCodeT at h
  simp only [Bool.and_eq_true, Bool.not_eq_true', beq_eq_false_iff_ne] at h
  exact length_pos_of_ne h.1.2

lemma bankEntries_glosses :
    bankEntries.all (fun pt => !(pt.2 == "") && !(normalizeKey pt.2 == "")) = true := by
  decide

lemma qCodeT_eq_spec (n : String) :
    ∀ pt ∈ bankEntries, qCodeT n pt = specQualifiesT n pt := by
  intro pt hpt
  have h := List.all_eq_true.mp bankEntries_glosses pt hpt
  simp only [Bool.and_eq_true, Bool.not_eq_true', beq_eq_false_iff_ne] at h
  unfold qCodeT specQualifiesT
  rw [beq_eq_false_iff_ne.mpr h.1, beq_eq_false_iff_ne.mpr h.2]
  rfl

lemma findPhraseByTranslation_eq_spec (text : String) :
    findPhraseByTranslation text = specMatchByTranslation text := by
  by_cases h1 : text = ""
  · simp [findPhraseByTranslation, specMatchByTranslation, h1]
  · by_cases h2 : normalizeKey text = ""
    · simp [findPhraseByTranslation, specMatchByTranslation, h1, h2]
    · unfold findPhraseByTranslation specMatchByTranslation
      rw [if_neg h1, if_neg h2, if_neg (by simp [h1, h2])]
      rw [translationStep_eq]
      rw [foldl_bestStep_fst_eq_specSelect (qCodeT (normalizeKey text)) scoreT
        bankEntries 0 (fun e _ hq => qCodeT_pos _ e hq)]
      rw [specSelect_congr scoreT (List.filter_congr (qCodeT_eq_spec (normalizeKey text)))]

/-! ## The romanised matcher agrees with its specification -/

lemma foldl_const {γ δ : Type} : ∀ (l : List γ) (b : δ),
    l.foldl (fun acc _ => acc) b = b
  | [], _ => rfl
  | _ :: l, b => foldl_const l b

lemma bestBlock_nil (a : List Char) : bestBlock a [] = (0, 0, 0) := by
  unfold bestBlock
  simp only [List.length_nil, List.range_zero, List.foldl_nil]
  exact foldl_const _ _

lemma matchTotal_nil (a : List Char) : matchTotal a [] = 0 := by
  unfold matchTotal
  simp [matchTotalF, bestBlock_nil]

lemma simRatio_empty (s : String) (h : s ≠ "") : simRatio s "" = 0 := by
  unfold simRatio
  have hl : ¬ (s.length + ("" : String).length = 0) := by
    have h0 : ("" : String).length = 0 := rfl
    have := length_pos_of_ne h
    omega
  rw [if_neg hl]
  have hz : ("" : String).data = [] := rfl
  rw [hz, matchTotal_nil]
  simp

lemma romanisedStep_eq (nq : String) :
    romanisedStep nq = bestStep (qCodeR nq) (scoreR nq) := by
  funext best pt
  unfold romanisedStep bestStep qCodeR scoreR
  by_cases hk : romanisedKey pt.1 = ""
  · simp [hk]
  · by_cases hr : simRatio nq (romanisedKey pt.1) < mkRat 11 20
    · simp [hk, hr]
    · simp [hk, hr]

lemma qCodeR_pos (nq : String) (pt : String × String) (h : qCodeR nq pt = true) :
    (0 : ℚ) < scoreR nq pt := by
  unfold qCodeR at h
  simp only [Bool.and_eq_true, Bool.not_eq_true', beq_eq_false_iff_ne,
    decide_eq_false_iff_not] at h
  have ht : (0 : ℚ) < mkRat 11 20 := by decide
  exact lt_of_lt_of_le ht (not_lt.mp h.2)

lemma qCodeR_eq_spec (nq : String) (h : nq ≠ "") :
    ∀ pt, qCodeR nq pt = specQualifiesR nq pt := by
  intro pt
  unfold qCodeR specQualifiesR
  by_cases hk : romanisedKey pt.1 = ""
  · rw [hk, simRatio_empty nq h]
    have hlt : ¬ ((0 : ℚ) ≥ mkRat 11 20) := by decide
    simp [hlt]
  · rw [beq_eq_false_iff_ne.mpr hk]
    by_cases hr : simRatio nq (romanisedKey pt.1) < mkRat 11 20
    · simp [hr, not_le.mpr hr]
    · simp [hr, ge_iff_le, not_lt.mp hr]

lemma findPhraseByRomanised_eq_spec (text : String) :
    findPhraseByRomanised text = specMatchByRomanized text := by
  by_cases h1 : normalizeRomanised text = ""
  · simp [findPhraseByRomanised, specMatchByRomanized, h1]
  · unfold findPhraseByRomanised specMatchByRomanized
    rw [if_neg h1, if_neg h1]
    rw [romanisedStep_eq]
    rw [foldl_bestStep_fst_eq_specSelect (qCodeR (normalizeRomanised text))
      (scoreR (normalizeRomanised text)) bankEntries 0
      (fun e _ hq => qCodeR_pos _ e hq)]
    rw [specSelect_congr (scoreR (normalizeRomanised text))
      (List.filter_congr (fun pt _ => qCodeR_eq_spec (normalizeRomanised text) h1 pt))]

/-- Claim C6: `_find_phrase_by_translation` qualifies a bank entry exactly
when its normalised gloss equals the normalised query or one is a substring
of the other, returns among qualifying entries the one with the longest
normalised gloss (first encountered in bank iteration order on ties), returns
`(None, None)` on empty/empty-normalising input or when no entry qualifies —
all captured by equality with the spec-transcribed `specMatchByTranslation` —
and on the query `"Thank you"` it returns the phrase whose gloss is exactly
`"Thank you"`. -/
theorem C6_matchByTranslation :
    (∀ text, findPhraseByTranslation text = specMatchByTranslation text) ∧
      findPhraseByTranslation "Thank you" = (some "ຂອບໃຈ", some "Thank you") :=
  ⟨findPhraseByTranslation_eq_spec, by decide⟩

/-- Claim C7: `_find_phrase_by_romanised` returns `(None, None)` exactly when
the normalised query is empty or no phrase's cached normalised romanisation
scores at least `0.55` against it, and otherwise returns the phrase with the
highest similarity ratio, keeping the first found on ties (a later candidate
replaces the best only on a strictly greater ratio) — captured by equality
with the spec-transcribed `specMatchByRomanized`. -/
theorem C7_matchByRomanized :
    ∀ text, findPhraseByRomanised text = specMatchByRomanized text :=
  findPhraseByRomanised_eq_spec

/-! ## Structural lemmas about `process_audio` -/

lemma overrideTask_focusIndices (s : EngineState) (inp : TurnInput) :
    (overrideTask s inp).focusIndices = s.focusIndices := by
  unfold overrideTask
  split <;> rfl

lemma overrideTask_awaitingRepeat (s : EngineState) (inp : TurnInput) :
    (overrideTask s inp).awaitingRepeat = s.awaitingRepeat := by
  unfold overrideTask
  split <;> rfl

lemma overrideTask_lastFocusPhrase (s : EngineState) (inp : TurnInput) :
    (overrideTask s inp).lastFocusPhrase = s.lastFocusPhrase := by
  unfold overrideTask
  split <;> rfl

lemma overrideTask_lastFocusTranslation (s : EngineState) (inp : TurnInput) :
    (overrideTask s inp).lastFocusTranslation = s.lastFocusTranslation := by
  unfold overrideTask
  split <;> rfl

lemma advanceFocus_awaitingRepeat (s : EngineState) (taskId : Option String) :
    (advanceFocus s taskId).awaitingRepeat = s.awaitingRepeat := by
  simp only [advanceFocus]
  split
  · rfl
  · split <;> rfl

lemma registerSuccess_awaitingRepeat (s : EngineState) (taskId : Option String) :
    (registerSuccess s taskId).awaitingRepeat = false := by
  unfold registerSuccess
  rw [advanceFocus_awaitingRepeat]

lemma assembleOutput_praise (sOut : EngineState) (br2 : BranchOut)
    (ep et : Option String) (er t sr : String) (logs : List String) (tc : Bool) :
    (assembleOutput sOut br2 ep et er t sr logs tc).feedback.praise = br2.praise := rfl

lemma assembleOutput_success (sOut : EngineState) (br2 : BranchOut)
    (ep et : Option String) (er t sr : String) (logs : List String) (tc : Bool) :
    (assembleOutput sOut br2 ep et er t sr logs tc).success = br2.success := rfl

lemma assembleOutput_logReviews (sOut : EngineState) (br2 : BranchOut)
    (ep et : Option String) (er t sr : String) (logs : List String) (tc : Bool) :
    (assembleOutput sOut br2 ep et er t sr logs tc).logReviews = logs := rfl

lemma assembleOutput_state (sOut : EngineState) (br2 : BranchOut)
    (ep et : Option String) (er t sr : String) (logs : List String) (tc : Bool) :
    (assembleOutput sOut br2 ep et er t sr logs tc).state = sOut := rfl

lemma assembleOutput_reviewCardIds (sOut : EngineState) (br2 : BranchOut)
    (ep et : Option String) (er t sr : String) (logs : List String) (tc : Bool) :
    (assembleOutput sOut br2 ep et er t sr logs tc).feedback.reviewCardIds =
      (if optTruthy br2.focusPhrase then [br2.focusPhrase.getD ""]
       else if optTruthy br2.translation then [t]
       else []) := rfl

lemma assembleOutput_focusPhrase_pos (sOut : EngineState) (br2 : BranchOut)
    (ep et : Option String) (er t sr : String) (logs : List String) (tc : Bool)
    (h : optTruthy br2.focusPhrase = true) :
    (assembleOutput sOut br2 ep et er t sr logs tc).feedback.focusPhrase =
      br2.focusPhrase := by
  simp only [assembleOutput]
  rw [if_neg (by simp [h])]

lemma successBlock_praise (s1 : EngineState) (taskId : Option String)
    (tr : Bool) (br : BranchOut) (text : String) :
    (successBlock s1 taskId tr br text).br.praise = br.praise := by
  simp only [successBlock]
  split
  · split <;> rfl
  · split
    · rfl
    · rfl

lemma successBlock_success (s1 : EngineState) (taskId : Option String)
    (tr : Bool) (br : BranchOut) (text : String) :
    (successBlock s1 taskId tr br text).br.success = br.success := by
  simp only [successBlock]
  split
  · split <;> rfl
  · split
    · rfl
    · rfl

lemma successBlock_awaitingRead (s1 : EngineState) (taskId : Option String)
    (tr : Bool) (br : BranchOut) (text : String) :
    (successBlock s1 taskId tr br text).br.awaitingRead = br.awaitingRead := by
  simp only [successBlock]
  split
  · split <;> rfl
  · split
    · rfl
    · rfl

lemma successBlock_logs (s1 : EngineState) (taskId : Option String)
    (tr : Bool) (br : BranchOut) (text : String) :
    (successBlock s1 taskId tr br text).logs = [] := by
  simp only [successBlock]
  split
  · split <;> rfl
  · split
    · rfl
    · simp_all

lemma successBlock_state (s1 : EngineState) (taskId : Option String)
    (tr : Bool) (br : BranchOut) (text : String) :
    (successBlock s1 taskId tr br text).state =
      (if br.success = true then registerSuccess s1 taskId else s1) := by
  simp only [successBlock]
  split
  · split <;> simp_all
  · split
    · simp_all
    · simp_all

lemma mainBranch_praise_isSome (s1 : EngineState) (ep et : Option String)
    (er en : String) (trA fft : Option String) (text sr : String) :
    (mainBranch s1 ep et er en trA fft text sr).praise.isSome =
      (mainBranch s1 ep et er en trA fft text sr).success := by
  simp only [mainBranch]
  split
  · split <;> rfl
  · split
    · rfl
    · split
      · rfl
      · split
        · rfl
        · split
          · rfl
          · split <;> rfl

lemma mainBranch_success_eq (s1 : EngineState) (ep et : Option String)
    (er en : String) (trA fft : Option String) (text sr : String) :
    (mainBranch s1 ep et er en trA fft text sr).success =
      (if containsLao text = true then
        decide (optTruthy ep = true ∧ normalizeRomanised sr ≠ "" ∧ en ≠ "" ∧
          simRatio (normalizeRomanised sr) en ≥ mkRat 3 4)
      else
        decide (s1.awaitingRepeat = true ∧ optTruthy ep = true ∧ en ≠ "" ∧
          normalizeRomanised text ≠ "" ∧
          simRatio (normalizeRomanised text) en ≥ mkRat 13 20)) := by
  simp only [mainBranch]
  split
  · split
    · next h => simp [h]
    · next h => simp [h]
  · split
    · next h => simp [h]
    · next h =>
      rw [decide_eq_false h]
      split
      · rfl
      · split
        · rfl
        · split
          · rfl
          · split <;> rfl

/-! ## Claim C1: SRS review logging -/

lemma processAudio_logReviews (s : EngineState) (inp : TurnInput) :
    (processAudio s inp).logReviews = [] := by
  by_cases hr : inp.asrReady = false
  · simp only [processAudio, if_pos hr]
    rfl
  · by_cases hs : inp.hasSpeech = false
    · simp only [processAudio, if_neg hr, if_pos hs]
      rfl
    · by_cases ht : inp.asrText = ""
      · simp only [processAudio, if_neg hr, if_neg hs, if_pos ht,
          assembleOutput_logReviews]
      · simp only [processAudio, if_neg hr, if_neg hs, if_neg ht,
          assembleOutput_logReviews]
        exact successBlock_logs _ _ _ _ _

/-- Claim C1: the spec requires a spaced-repetition review event (one
`log_review` call) for every successful repeat and none otherwise, but the
source's `log_review` call sits inside the branch taken only when `success`
is false, guarded by `if success:` — it is unreachable, so no turn ever logs
a review.  The first conjunct shows no call happens on any turn; the last two
evaluate a concrete successful repeat (transcript exactly the expected phrase
`"ສະບາຍດີ"`) and show that even it logs nothing. -/
theorem C1_reviewLoggingDead :
    (∀ (s : EngineState) (inp : TurnInput), (processAudio s inp).logReviews = []) ∧
      (processAudio initState inpLaoRepeat).success = true ∧
      (processAudio initState inpLaoRepeat).logReviews = [] :=
  ⟨fun s inp => processAudio_logReviews s inp, by decide, by decide⟩

/-! ## Claim C10: praise exactly on success -/

lemma processAudio_praise_isSome (s : EngineState) (inp : TurnInput) :
    (processAudio s inp).feedback.praise.isSome = (processAudio s inp).success := by
  by_cases hr : inp.asrReady = false
  · simp only [processAudio, if_pos hr]
    rfl
  · by_cases hs : inp.hasSpeech = false
    · simp only [processAudio, if_neg hr, if_pos hs]
      rfl
    · by_cases ht : inp.asrText = ""
      · simp only [processAudio, if_neg hr, if_neg hs, if_pos ht,
          assembleOutput_praise, assembleOutput_success]
        rfl
      · simp only [processAudio, if_neg hr, if_neg hs, if_neg ht,
          assembleOutput_praise, assembleOutput_success,
          successBlock_praise, successBlock_success]
        exact mainBranch_praise_isSome _ _ _ _ _ _ _ _ _

lemma processAudio_success_eq (s : EngineState) (inp : TurnInput) :
    (processAudio s inp).success = successCond s inp := by
  by_cases hr : inp.asrReady = false
  · simp only [processAudio, successCond, if_pos hr]
    rfl
  · by_cases hs : inp.hasSpeech = false
    · simp only [processAudio, successCond, if_neg hr, if_pos hs]
      rfl
    · by_cases ht : inp.asrText = ""
      · simp only [processAudio, successCond, if_neg hr, if_neg hs, if_pos ht,
          assembleOutput_success]
      · simp only [processAudio, successCond, if_neg hr, if_neg hs, if_neg ht,
          assembleOutput_success, successBlock_success]
        exact mainBranch_success_eq _ _ _ _ _ _ _ _ _

/-- Claim C10: in every `SegmentFeedback` returned by `process_audio`,
`praise` is non-`None` exactly when the turn's `success` flag was set, and
the flag is set exactly when the turn reaches matching (ASR ready, speech,
non-empty transcript) and clears the `0.75` Lao-script threshold or the
`0.65` awaiting-repeat threshold; every short circuit and coaching-hint
branch yields `praise = None`. -/
theorem C10_praise_iff_success :
    ∀ (s : EngineState) (inp : TurnInput),
      (processAudio s inp).feedback.praise.isSome = (processAudio s inp).success ∧
      (processAudio s inp).success = successCond s inp :=
  fun s inp => ⟨processAudio_praise_isSome s inp, processAudio_success_eq s inp⟩

/-! ## Claim C4: consumption of `awaiting_repeat` -/

/-- Claim C4 (counterexample): starting from the freshly prompted state, two
consecutive turns with unmatched non-Lao input both reach the awaiting-repeat
match check and both read `awaiting_repeat` as true — the claim that the flag
is never read true on two distinct turns is false. -/
theorem C4_counterexample :
    (runTrace statePrompted [inpGibberish, inpGibberish]).map
        (fun o => o.awaitingRead) = [some true, some true] := by
  decide

/-- Claim C4 (amended): `awaiting_repeat` after a turn equals its previous
value conjoined with the turn not being a success — i.e. the flag is cleared
exactly by a successful match check (and only re-set by
`mark_focus_prompted`); an unsuccessful match check leaves it set, so it can
be observed true on several turns until a success consumes it. -/
theorem C4_awaitingConsumption (s : EngineState) (inp : TurnInput) :
    (processAudio s inp).state.awaitingRepeat =
      (s.awaitingRepeat && !(processAudio s inp).success) := by
  by_cases hr : inp.asrReady = false
  · simp only [processAudio, if_pos hr]
    simp [shortOut, overrideTask_awaitingRepeat]
  · by_cases hs : inp.hasSpeech = false
    · simp only [processAudio, if_neg hr, if_pos hs]
      simp [shortOut, overrideTask_awaitingRepeat]
    · by_cases ht : inp.asrText = ""
      · simp only [processAudio, if_neg hr, if_neg hs, if_pos ht,
          assembleOutput_state, assembleOutput_success]
        simp [overrideTask_awaitingRepeat]
      · simp only [processAudio, if_neg hr, if_neg hs, if_neg ht,
          assembleOutput_state, assembleOutput_success,
          successBlock_state, successBlock_success]
        by_cases hb : (mainBranch (overrideTask s inp)
            (currentFocus (overrideTask s inp) inp.taskId).1
            (currentFocus (overrideTask s inp) inp.taskId).2
            (expectedRom (currentFocus (overrideTask s inp) inp.taskId).1)
            (normalizeRomanised (expectedRom (currentFocus (overrideTask s inp) inp.taskId).1))
            (resolveTranslation (overrideTask s inp) inp.asrText inp.translateResult).translation
            (resolveTranslation (overrideTask s inp) inp.asrText inp.translateResult).focusFromTranslation
            inp.asrText (segmentRomanised inp.asrText)).success = true
        · simp [hb, registerSuccess_awaitingRepeat]
        · simp [hb, overrideTask_awaitingRepeat,
            Bool.not_eq_true _ ▸ hb]

/-! ## Claim C3: review-card ids -/

/-- Claim C3 (counterexample): with speech detected but an empty transcript,
the returned feedback carries the expected phrase as `focus_phrase` (set by
the final fallback) while `review_card_ids` — computed before that fallback —
is empty, so `review_card_ids` does not contain the focus phrase even though
`focus_phrase` is set. -/
theorem C3_counterexample :
    (processAudio initState inpEmptyTranscript).feedback.focusPhrase =
        some "ສະບາຍດີ" ∧
      (processAudio initState inpEmptyTranscript).feedback.reviewCardIds = [] := by
  constructor
  · decide
  · decide

/-- Claim C3 (amended): `review_card_ids` is determined by the focus phrase
and gloss as they stand *before* the final expected-phrase fallback: it is
the (truthy) matcher-resolved focus phrase when one was set, else the raw
transcript when a (truthy) gloss was resolved, else empty; and whenever that
pre-fallback focus phrase is set it is also the returned `focus_phrase`.
The returned `focus_phrase` may additionally be set by the fallback without
appearing in `review_card_ids`. -/
theorem C3_reviewCardIds (s : EngineState) (inp : TurnInput) :
    ((processAudio s inp).feedback.reviewCardIds =
      (if optTruthy (processAudio s inp).preFocusPhrase then
        [((processAudio s inp).preFocusPhrase).getD ""]
      else if optTruthy (processAudio s inp).preTranslation then [inp.asrText]
      else [])) ∧
    (optTruthy (processAudio s inp).preFocusPhrase = true →
      (processAudio s inp).feedback.focusPhrase =
        (processAudio s inp).preFocusPhrase) := by
  by_cases hr : inp.asrReady = false
  · simp only [processAudio, if_pos hr]
    exact ⟨rfl, by intro h; simp [shortOut, optTruthy] at h⟩
  · by_cases hs : inp.hasSpeech = false
    · simp only [processAudio, if_neg hr, if_pos hs]
      exact ⟨rfl, by intro h; simp [shortOut, optTruthy] at h⟩
    · by_cases ht : inp.asrText = ""
      · simp only [processAudio, if_neg hr, if_neg hs, if_pos ht]
        refine ⟨rfl, ?_⟩
        intro h
        exact assembleOutput_focusPhrase_pos _ _ _ _ _ _ _ _ _ h
      · simp only [processAudio, if_neg hr, if_neg hs, if_neg ht]
        refine ⟨rfl, ?_⟩
        intro h
        exact assembleOutput_focusPhrase_pos _ _ _ _ _ _ _ _ _ h

/-! ## Claim C9: the no-speech short circuit -/

/-- Claim C9: when ASR is ready but voice-activity detection reports no
speech, `process_audio` short-circuits: empty `lao_text`, the single
"didn't catch anything" correction, no praise, no review ids, no
transcription, no translator call, no review logging, and no state change
beyond the task override applied at entry. -/
theorem C9_noSpeech (s : EngineState) (inp : TurnInput)
    (hready : inp.asrReady = true) (hspeech : inp.hasSpeech = false) :
    (processAudio s inp).feedback.laoText = "" ∧
    (processAudio s inp).feedback.romanised = "" ∧
    (processAudio s inp).feedback.translation = none ∧
    (processAudio s inp).feedback.corrections = [msgNoSpeech] ∧
    (processAudio s inp).feedback.praise = none ∧
    (processAudio s inp).feedback.reviewCardIds = [] ∧
    (processAudio s inp).transcribed = false ∧
    (processAudio s inp).translatorCalled = false ∧
    (processAudio s inp).logReviews = [] ∧
    (processAudio s inp).state.currentTask = (overrideTask s inp).currentTask ∧
    (processAudio s inp).state.focusIndices = s.focusIndices ∧
    (processAudio s inp).state.awaitingRepeat = s.awaitingRepeat ∧
    (processAudio s inp).state.lastFocusPhrase = s.lastFocusPhrase ∧
    (processAudio s inp).state.lastFocusTranslation = s.lastFocusTranslation := by
  have hr : ¬ (inp.asrReady = false) := by simp [hready]
  simp only [processAudio, if_neg hr, if_pos hspeech]
  exact ⟨rfl, rfl, rfl, rfl, rfl, rfl, rfl, rfl, rfl, rfl,
    overrideTask_focusIndices s inp, overrideTask_awaitingRepeat s inp,
    overrideTask_lastFocusPhrase s inp, overrideTask_lastFocusTranslation s inp⟩

/-- Claim C9 (witness): the short circuit evaluated on a concrete silent
turn. -/
theorem C9_noSpeech_witness :
    (processAudio initState inpNoSpeech).feedback.laoText = "" ∧
    (processAudio initState inpNoSpeech).feedback.corrections = [msgNoSpeech] ∧
    (processAudio initState inpNoSpeech).feedback.praise = none ∧
    (processAudio initState inpNoSpeech).transcribed = false := by
  have h := C9_noSpeech initState inpNoSpeech rfl rfl
  exact ⟨h.1, h.2.2.2.1, h.2.2.2.2.1, h.2.2.2.2.2.2.1⟩

/-- Claim C3 (witness): on the concrete successful-repeat turn the
pre-fallback focus phrase is truthy and the returned `focus_phrase` agrees
with it. -/
theorem C3_reviewCardIds_witness :
    (processAudio initState inpLaoRepeat).feedback.focusPhrase =
      (processAudio initState inpLaoRepeat).preFocusPhrase :=
  (C3_reviewCardIds initState inpLaoRepeat).2 (by decide)

/-! ## Claim C5: focus advancement and its invariant -/

lemma not_isEmpty_of_len {l : List (String × String)} (h : 1 ≤ l.length) :
    ¬ l.isEmpty = true := by
  cases l with
  | nil => simp at h
  | cons a l => simp

lemma advanceFocus_self (s : EngineState) (taskId : Option String)
    (h : 1 ≤ (bankGet (orTask taskId s)).length) :
    (advanceFocus s taskId).focusIndices (orTask taskId s) =
      (if s.focusIndices (orTask taskId s) + 1 < (bankGet (orTask taskId s)).length
       then s.focusIndices (orTask taskId s) + 1
       else s.focusIndices (orTask taskId s)) := by
  simp only [advanceFocus]
  rw [if_neg (not_isEmpty_of_len h)]
  by_cases h2 : s.focusIndices (orTask taskId s) + 1 <
      (bankGet (orTask taskId s)).length
  · rw [if_pos h2, if_pos h2]
    simp
  · rw [if_neg h2, if_neg h2]

lemma advanceFocus_other (s : EngineState) (taskId : Option String)
    (t : String) (hne : t ≠ orTask taskId s) :
    (advanceFocus s taskId).focusIndices t = s.focusIndices t := by
  simp only [advanceFocus]
  split
  · rfl
  · split
    · simp [hne]
    · rfl

lemma focusInv_advance (s : EngineState) (taskId : Option String)
    (h : FocusInv s) : FocusInv (advanceFocus s taskId) := by
  intro t ht
  by_cases he : t = orTask taskId s
  · subst he
    rw [advanceFocus_self s taskId ht]
    split
    · next h2 => exact h2
    · exact h _ ht
  · rw [advanceFocus_other s taskId t he]
    exact h t ht

lemma focusInv_registerSuccess (s : EngineState) (taskId : Option String)
    (h : FocusInv s) : FocusInv (registerSuccess s taskId) := by
  unfold registerSuccess
  exact focusInv_advance _ _ (fun t ht => h t ht)

lemma focusInv_overrideTask (s : EngineState) (inp : TurnInput)
    (h : FocusInv s) : FocusInv (overrideTask s inp) := by
  intro t ht
  rw [overrideTask_focusIndices]
  exact h t ht

lemma processAudio_state_cases (s : EngineState) (inp : TurnInput) :
    (processAudio s inp).state = overrideTask s inp ∨
      (processAudio s inp).state =
        registerSuccess (overrideTask s inp) inp.taskId := by
  by_cases hr : inp.asrReady = false
  · left
    simp only [processAudio, if_pos hr]
    rfl
  · by_cases hs : inp.hasSpeech = false
    · left
      simp only [processAudio, if_neg hr, if_pos hs]
      rfl
    · by_cases ht : inp.asrText = ""
      · left
        simp only [processAudio, if_neg hr, if_neg hs, if_pos ht,
          assembleOutput_state]
      · simp only [processAudio, if_neg hr, if_neg hs, if_neg ht,
          assembleOutput_state, successBlock_state]
        split
        · right
          rfl
        · left
          rfl

lemma focusInv_processAudio (s : EngineState) (inp : TurnInput)
    (h : FocusInv s) : FocusInv (processAudio s inp).state := by
  rcases processAudio_state_cases s inp with he | he <;> rw [he]
  · exact focusInv_overrideTask s inp h
  · exact focusInv_registerSuccess _ _ (focusInv_overrideTask s inp h)

/-- Claim C5: for a task with `n ≥ 1` phrases, `_advance_focus` increments
the task's focus index by exactly one when `index + 1 < n` and leaves it
unchanged otherwise (never wrapping, in particular at the last phrase), it
touches no other task's index, and the invariant `focus_index[task] ≤ n - 1`
is preserved by `_advance_focus` and by every `process_audio` turn. -/
theorem C5_advanceFocus (s : EngineState) (taskId : Option String)
    (h : 1 ≤ (bankGet (orTask taskId s)).length) :
    ((advanceFocus s taskId).focusIndices (orTask taskId s) =
      (if s.focusIndices (orTask taskId s) + 1 < (bankGet (orTask taskId s)).length
       then s.focusIndices (orTask taskId s) + 1
       else s.focusIndices (orTask taskId s))) ∧
    (∀ t, t ≠ orTask taskId s →
      (advanceFocus s taskId).focusIndices t = s.focusIndices t) ∧
    (s.focusIndices (orTask taskId s) = (bankGet (orTask taskId s)).length - 1 →
      (advanceFocus s taskId).focusIndices (orTask taskId s) =
        s.focusIndices (orTask taskId s)) ∧
    (FocusInv s → FocusInv (advanceFocus s taskId)) ∧
    (∀ inp, FocusInv s → FocusInv (processAudio s inp).state) := by
  refine ⟨advanceFocus_self s taskId h, fun t hne => advanceFocus_other s taskId t hne,
    ?_, focusInv_advance s taskId, fun inp hInv => focusInv_processAudio s inp hInv⟩
  intro hlast
  rw [advanceFocus_self s taskId h, if_neg (by omega)]

/-- Claim C5 (witness): advancing from the initial state increments the
current task's index to `1` and preserves the invariant. -/
theorem C5_advanceFocus_witness :
    (advanceFocus initState none).focusIndices (orTask none initState) = 1 ∧
      FocusInv (advanceFocus initState none) := by
  have h := C5_advanceFocus initState none (by decide)
  constructor
  · rw [h.1]
    decide
  · exact h.2.2.2.1 (fun t ht => ht)

/-! ## Claims C2 and C8: the conversation service -/

lemma lastN_length {α : Type} (n : Nat) (l : List α) :
    (lastN n l).length = min l.length n := by
  unfold lastN
  rw [List.length_drop]
  omega

lemma joinSep_filter_pos (sep introStr summary : String) (hs : summary ≠ "") :
    0 < (joinSep sep ([introStr, summary].filter (fun p => p ≠ ""))).length := by
  have hmem : summary ∈ [introStr, summary].filter (fun p => p ≠ "") :=
    List.mem_filter.mpr ⟨by simp, by simp [hs]⟩
  exact lt_of_lt_of_le (length_pos_of_ne hs) (joinSep_mem_le sep _ summary hmem)

/-- Claim C2 (amended): for every non-empty (non-whitespace) message the turn
returns normally with non-empty `reply_text`, and the returned history is the
last `min(len, 8)` entries of the incoming history with the new user and
assistant turns appended — so it grows by exactly two only when the incoming
history has at most 8 entries, and its length is `min(len, 8) + 2`, which can
reach 10: the 8-entry cap applies to the retained prior context, not to the
returned list. -/
theorem C2_generateHistory (cbank : List (String × List (String × String)))
    (modelName : String) (backend : GenBackend) (history : List ChatMsg)
    (msg : String) (taskId : Option String) (obs : Option SegmentFeedback)
    (h : pyStrip msg ≠ "") :
    ∃ r, generate cbank modelName backend history msg taskId obs = Except.ok r ∧
      r.replyText ≠ "" ∧
      r.history = lastN 8 history ++
        [{ role := "user", content := msg : ChatMsg },
          { role := "assistant", content := r.replyText : ChatMsg }] ∧
      r.history.length = min history.length 8 + 2 := by
  simp only [generate, if_neg h]
  refine ⟨_, rfl, ?_, rfl, ?_⟩
  · -- the reply is non-empty in every backend case: it always extends the
    -- summary, whose final tone-contour line is fixed
    rcases backend with _ | g | reason
    · dsimp only
      split
      · apply ne_empty_of_length_pos
        calc 0 < (buildSummary obs _ _).length :=
              length_pos_of_ne (buildSummary_ne _ _ _)
          _ ≤ _ := le_trans (length_append_left_le _ _) (length_append_left_le _ _)
      · exact buildSummary_ne _ _ _
    · dsimp only
      split
      · apply ne_empty_of_length_pos
        calc 0 < (buildSummary obs _ _).length :=
              length_pos_of_ne (buildSummary_ne _ _ _)
          _ ≤ _ := le_trans (length_append_left_le _ _) (length_append_left_le _ _)
      · exact ne_empty_of_length_pos
          (joinSep_filter_pos "\n\n" _ _ (buildSummary_ne _ _ _))
    · dsimp only
      apply ne_empty_of_length_pos
      calc 0 < (buildSummary obs _ _).length :=
            length_pos_of_ne (buildSummary_ne _ _ _)
        _ ≤ _ := le_trans (length_append_left_le _ _) (length_append_left_le _ _)
  · simp only [List.length_append, lastN_length]
    rfl

/-- Claim C2 (counterexample): with a seven-entry incoming history and a
non-empty message, the returned history has nine entries — more than the
8-entry cap the claim asserts for the returned list. -/
theorem C2_counterexample :
    ((generate phraseBank "m" GenBackend.unavailable historySeven "hi"
        none none).toOption.map (fun r => r.history.length)) = some 9 := by
  decide

/-- Claim C2 (witness): the amended statement evaluated on an empty history
and the message `"hi"`. -/
theorem C2_generateHistory_witness :
    ∃ r, generate phraseBank "m" GenBackend.unavailable [] "hi" none none =
        Except.ok r ∧
      r.replyText ≠ "" ∧
      r.history = lastN 8 ([] : List ChatMsg) ++
        [{ role := "user", content := "hi" : ChatMsg },
          { role := "assistant", content := r.replyText : ChatMsg }] ∧
      r.history.length = min ([] : List ChatMsg).length 8 + 2 :=
  C2_generateHistory phraseBank "m" GenBackend.unavailable [] "hi" none none
    (by decide)

/-- Claim C8: `generate` raises the empty-input validation error exactly when
the learner message is empty or whitespace-only; every non-empty message
returns normally, and a runtime failure of the generative backend is absorbed
into the deterministic fallback reply with the failure reason recorded in the
diagnostics map. -/
theorem C8_errorHandling (cbank : List (String × List (String × String)))
    (modelName : String) (backend : GenBackend) (history : List ChatMsg)
    (msg : String) (taskId : Option String) (obs : Option SegmentFeedback) :
    (pyStrip msg = "" →
      generate cbank modelName backend history msg taskId obs =
        Except.error "Message must not be empty") ∧
    (pyStrip msg ≠ "" →
      ∃ r, generate cbank modelName backend history msg taskId obs =
        Except.ok r) ∧
    (∀ r reason, backend = GenBackend.failed reason →
      generate cbank modelName backend history msg taskId obs = Except.ok r →
      r.debug = [("backend", "fallback"), ("reason", reason)]) := by
  refine ⟨?_, ?_, ?_⟩
  · intro h
    simp only [generate, if_pos h]
  · intro h
    simp only [generate, if_neg h]
    exact ⟨_, rfl⟩
  · intro r reason hb hok
    subst hb
    by_cases h : pyStrip msg = ""
    · rw [(by simp only [generate, if_pos h] : generate cbank modelName
        (GenBackend.failed reason) history msg taskId obs =
          Except.error "Message must not be empty")] at hok
      exact absurd hok (by simp)
    · simp only [generate, if_neg h] at hok
      injection hok with hr
      rw [← hr]

/-! ## Fuel sufficiency of the Ratcliff–Obershelp embedding

`matchTotalF` is defined with a fuel argument to keep the recursion
structural; the following lemmas prove the fuel is irrelevant once it exceeds
the length of the first string, so `matchTotal` computes the source's
untruncated recursion. -/

lemma commonPre_le_left : ∀ (xs ys : List Char), commonPre xs ys ≤ xs.length
  | [], _ => by simp [commonPre]
  | _ :: _, [] => by simp [commonPre]
  | x :: xs, y :: ys => by
    simp only [commonPre, List.length_cons]
    split
    · exact Nat.succ_le_succ (commonPre_le_left xs ys)
    · exact Nat.zero_le _

lemma bestBlock_bounds (a b : List Char) :
    (bestBlock a b).2.2 ≠ 0 →
      (bestBlock a b).1 < a.length ∧ (bestBlock a b).2.1 < b.length ∧
        (bestBlock a b).2.2 =
          commonPre (a.drop (bestBlock a b).1) (b.drop (bestBlock a b).2.1) := by
  unfold bestBlock
  apply List.foldlRecOn (motive := fun best : Nat × Nat × Nat =>
    best.2.2 ≠ 0 → best.1 < a.length ∧ best.2.1 < b.length ∧
      best.2.2 = commonPre (a.drop best.1) (b.drop best.2.1))
  · intro h
    exact absurd rfl h
  · intro best hbest i hi
    apply List.foldlRecOn (motive := fun best : Nat × Nat × Nat =>
      best.2.2 ≠ 0 → best.1 < a.length ∧ best.2.1 < b.length ∧
        best.2.2 = commonPre (a.drop best.1) (b.drop best.2.1))
    · exact hbest
    · intro best' hbest' j hj
      dsimp only
      split
      · intro _
        exact ⟨List.mem_range.mp hi, List.mem_range.mp hj, rfl⟩
      · exact hbest'

lemma bestBlock_block_le (a b : List Char) (h : (bestBlock a b).2.2 ≠ 0) :
    (bestBlock a b).1 + (bestBlock a b).2.2 ≤ a.length := by
  obtain ⟨hi, -, hk⟩ := bestBlock_bounds a b h
  have := commonPre_le_left (a.drop (bestBlock a b).1) (b.drop (bestBlock a b).2.1)
  rw [← hk, List.length_drop] at this
  omega

lemma matchTotalF_congr :
    ∀ (n : Nat) (a b : List Char) (f1 f2 : Nat), a.length ≤ n →
      a.length < f1 → a.length < f2 → matchTotalF f1 a b = matchTotalF f2 a b
  | n, a, b, f1 + 1, f2 + 1, hn, h1, h2 => by
    simp only [matchTotalF]
    by_cases hk : (bestBlock a b).2.2 = 0
    · rw [if_pos hk, if_pos hk]
    · rw [if_neg hk, if_neg hk]
      obtain ⟨hi, hj, -⟩ := bestBlock_bounds a b hk
      have hik := bestBlock_block_le a b hk
      have hkpos : 1 ≤ (bestBlock a b).2.2 := Nat.one_le_iff_ne_zero.mpr hk
      match n with
      | 0 => omega
      | n + 1 =>
        have hlt : (a.take (bestBlock a b).1).length ≤ n := by
          rw [List.length_take]
          omega
        have hld : (a.drop ((bestBlock a b).1 + (bestBlock a b).2.2)).length ≤ n := by
          rw [List.length_drop]
          omega
        rw [matchTotalF_congr n (a.take (bestBlock a b).1) (b.take (bestBlock a b).2.1)
            f1 f2 hlt (by rw [List.length_take]; omega) (by rw [List.length_take]; omega),
          matchTotalF_congr n (a.drop ((bestBlock a b).1 + (bestBlock a b).2.2))
            (b.drop ((bestBlock a b).2.1 + (bestBlock a b).2.2)) f1 f2 hld
            (by rw [List.length_drop]; omega) (by rw [List.length_drop]; omega)]

/-- The fuel used by `matchTotal` is irrelevant as soon as it exceeds the
first string's length: the fuel-bounded definition computes the source's
untruncated Ratcliff–Obershelp recursion. -/
theorem matchTotalF_fuel_sufficient (fuel : Nat) (a b : List Char)
    (h : a.length < fuel) : matchTotalF fuel a b = matchTotal a b :=
  matchTotalF_congr a.length a b fuel (a.length + 1) (le_refl _) h (Nat.lt_succ_self _)

/-- Claim C8 (witness): the validation error on a whitespace-only message,
and the normal return with fallback diagnostics on a backend failure. -/
theorem C8_errorHandling_witness :
    generate phraseBank "m" (GenBackend.failed "boom") [] " " none none =
        Except.error "Message must not be empty" ∧
      (∃ r, generate phraseBank "m" (GenBackend.failed "boom") [] "hi" none none =
        Except.ok r) ∧
      ((generate phraseBank "m" (GenBackend.failed "boom") [] "hi" none
          none).toOption.map (fun r => r.debug)) =
        some [("backend", "fallback"), ("reason", "boom")] := by
  refine ⟨?_, ?_, ?_⟩
  · exact (C8_errorHandling phraseBank "m" (GenBackend.failed "boom") [] " "
      none none).1 (by decide)
  · exact (C8_errorHandling phraseBank "m" (GenBackend.failed "boom") [] "hi"
      none none).2.1 (by decide)
  · decide

end LaosTutor
